import Mathlib

/-!
# Janitor: TTL-based expiry sweeper (server/janitor.go)

A shallow embedding of `server/janitor.go` and theorems about it.

* Go `int`, `int64` and `time.Duration` values are integers; products that can
  leave the 64-bit range are reduced with `wrap64`.
* A `time.Time` is the integer number of nanoseconds since a fixed epoch and
  `Time.Add` is exact addition (the representable range of `time.Time` is far
  larger than any 64-bit nanosecond offset from a wall-clock reading).
* A Go `error` is `Option String`: `none` is `nil`, `some msg` an error whose
  `Error()` text is `msg`.
* The collaborators reached through `environment.Env` (blob store, invocation
  database, configurator) and `log.Printf` act on an abstract world `σ`.
-/

namespace janitor

/-! ## Machine integers and time -/

/-- Two's-complement reduction of an integer to the signed 64-bit range. -/
def wrap64 (x : Int) : Int := (x + 2 ^ 63) % 2 ^ 64 - 2 ^ 63

/-- The value `time.Second`, a `time.Duration` in nanoseconds. -/
def Second : Int := 1000000000

/-- The method `Time.Add`: the instant `d` nanoseconds after `t`. -/
def timeAdd (t d : Int) : Int := t + d

/-! ## Flags (lines 13-17) -/

/-- Default of the flag `cleanup_interval`: `10*60*time.Second`. -/
def cleanupIntervalDefault : Int := 10 * 60 * Second

/-- Default of the flag `cleanup_workers`. -/
def cleanupWorkersDefault : Int := 1

/-- Default of the flag `log_deletion_errors`. -/
def logDeletionErrorsDefault : Bool := false

/-! ## Data model -/

/-- The fields of `tables.Invocation` that the janitor reads. -/
structure Invocation where
  InvocationID : String
  BlobID : String
deriving DecidableEq, Repr

/-- The collaborators of the janitor, acting on a world `σ`:
`GetBlobstore().DeleteBlob`, `GetInvocationDB().DeleteInvocation`,
`GetInvocationDB().LookupExpiredInvocations`, `log.Printf` and
`GetConfigurator().GetStorageTTLSeconds()`. -/
structure Env (σ : Type) where
  DeleteBlob : String → σ → Option String × σ
  DeleteInvocation : String → σ → Option String × σ
  LookupExpiredInvocations : Int → Int → σ → (List Invocation × Option String) × σ
  Printf : String → σ → σ
  GetStorageTTLSeconds : Int

/-- State of a channel `chan struct{}` on which nothing is ever sent. -/
inductive Chan where
  | nil
  | opened
  | closed
deriving DecidableEq, Repr

/-- A `time.Ticker`: its interval, whether `Stop` was called on it, and whether
a tick is buffered in its one-slot channel `C`. -/
structure Ticker where
  d : Int
  stopped : Bool
  C : Bool
deriving DecidableEq, Repr

/-- The struct `Janitor` (lines 19-25). The immutable field `env` is passed
explicitly to the functions that use it. -/
structure Janitor where
  ticker : Option Ticker
  quit : Chan
  ttl : Int
deriving DecidableEq, Repr

/-! ## NewJanitor (lines 27-32) -/

/-- The constructor `NewJanitor`:
`ttl = time.Duration(GetStorageTTLSeconds()) * time.Second` in 64-bit
arithmetic; `ticker` and `quit` keep their zero values. -/
def NewJanitor {σ : Type} (env : Env σ) : Janitor :=
  { ticker := none
    quit := Chan.nil
    ttl := wrap64 (env.GetStorageTTLSeconds * Second) }

/-! ## deleteInvocation (lines 34-44) -/

/-- The method `deleteInvocation`: delete the blob, then the row; each error is
logged when `logDeletionErrors` is set and otherwise dropped. -/
def deleteInvocation {σ : Type} (env : Env σ) (logDeletionErrors : Bool)
    (invocation : Invocation) (w : σ) : σ :=
  let r1 := env.DeleteBlob invocation.BlobID w
  let w1 :=
    match r1.1 with
    | some err =>
      if logDeletionErrors then
        env.Printf ("Error deleting blob (" ++ invocation.BlobID ++ "): " ++ err) r1.2
      else r1.2
    | none => r1.2
  let r2 := env.DeleteInvocation invocation.InvocationID w1
  match r2.1 with
  | some err =>
    if logDeletionErrors then
      env.Printf ("Error deleting invocation (" ++ invocation.InvocationID ++ "): " ++ err) r2.2
    else r2.2
  | none => r2.2

/-! ## deleteExpiredInvocations (lines 46-58) -/

/-- The loop `for _, exp := range expired` of lines 55-57. -/
def deleteEach {σ : Type} (env : Env σ) (logDeletionErrors : Bool) :
    List Invocation → σ → σ
  | [], w => w
  | exp :: rest, w => deleteEach env logDeletionErrors rest (deleteInvocation env logDeletionErrors exp w)

/-- Line 48, `cutoff := time.Now().Add(-1 * j.ttl)`, with `now` the reading of
`time.Now()`; the product is a 64-bit `time.Duration`. -/
def cutoffAt (j : Janitor) (now : Int) : Int := timeAdd now (wrap64 (-1 * j.ttl))

/-- The method `deleteExpiredInvocations`; `now` is the reading of `time.Now()`
on line 48. The early return of line 52 is taken only when the lookup failed
and `logDeletionErrors` is set. -/
def deleteExpiredInvocations {σ : Type} (env : Env σ) (logDeletionErrors : Bool)
    (j : Janitor) (now : Int) (w : σ) : σ :=
  let cutoff := cutoffAt j now
  let r := env.LookupExpiredInvocations cutoff 10 w
  match r.1.2 with
  | some err =>
    if logDeletionErrors then
      env.Printf ("Error finding expired deletions: " ++ err) r.2
    else deleteEach env logDeletionErrors r.1.1 r.2
  | none => deleteEach env logDeletionErrors r.1.1 r.2

/-! ## Recording the store calls -/

/-- A call made on the blob store or the invocation database. -/
inductive Call where
  | DeleteBlob (blobID : String)
  | DeleteInvocation (invocationID : String)
  | LookupExpiredInvocations (cutoff : Int) (limit : Int)
deriving DecidableEq, Repr

/-- The collaborators `env` with every store call appended to a call log kept
next to the world; the outcomes are those of `env`. -/
def traced {σ : Type} (env : Env σ) : Env (σ × List Call) where
  DeleteBlob := fun id w =>
    ((env.DeleteBlob id w.1).1, ((env.DeleteBlob id w.1).2, w.2 ++ [Call.DeleteBlob id]))
  DeleteInvocation := fun id w =>
    ((env.DeleteInvocation id w.1).1,
      ((env.DeleteInvocation id w.1).2, w.2 ++ [Call.DeleteInvocation id]))
  LookupExpiredInvocations := fun cutoff limit w =>
    ((env.LookupExpiredInvocations cutoff limit w.1).1,
      ((env.LookupExpiredInvocations cutoff limit w.1).2,
        w.2 ++ [Call.LookupExpiredInvocations cutoff limit]))
  Printf := fun msg w => (env.Printf msg w.1, w.2)
  GetStorageTTLSeconds := env.GetStorageTTLSeconds

/-- The two store calls that `deleteInvocation` makes for one record. -/
def recordCalls (r : Invocation) : List Call :=
  [Call.DeleteBlob r.BlobID, Call.DeleteInvocation r.InvocationID]

/-- A store whose lookup reports an error and hands back one record with it;
both deletions succeed. -/
def failingLookupEnv : Env Unit where
  DeleteBlob := fun _ w => (none, w)
  DeleteInvocation := fun _ w => (none, w)
  LookupExpiredInvocations := fun _ _ w =>
    (([{ InvocationID := "inv-1", BlobID := "blob-1" }], some "database unavailable"), w)
  Printf := fun _ w => w
  GetStorageTTLSeconds := 3600

/-! ## Start (lines 60-82) -/

/-- The function `time.NewTicker`: it panics unless the interval is positive;
the new ticker is running and its channel is empty. -/
def NewTicker (d : Int) : Except String Ticker :=
  if d ≤ 0 then Except.error "non-positive interval for NewTicker"
  else Except.ok { d := d, stopped := false, C := false }

/-- Program counter of a worker goroutine (lines 70-80): blocked in the
`select` of line 72; past the receive of line 73 and before the call of
line 74; inside the call of `deleteExpiredInvocations` of line 74; or returned
from the goroutine function. -/
inductive Pc where
  | select
  | received
  | sweep
  | exited
deriving DecidableEq, Repr

/-- The loop `for i := 0; i < *cleanupWorkers; i++` of line 69: each iteration
spawns one goroutine, which starts at the `select`. The fuel is the number of
iterations still allowed. -/
def spawnLoop : Nat → Int → Int → List Pc → List Pc
  | 0, _, _, gs => gs
  | fuel + 1, i, n, gs => if i < n then spawnLoop fuel (i + 1) n (gs ++ [Pc.select]) else gs

/-- What a call of `Start` leaves behind: the janitor, the goroutines it
spawned and the lines it logged. -/
structure Started where
  j : Janitor
  spawned : List Pc
  logged : List String
deriving DecidableEq, Repr

/-- The method `Start`. The ticker and the quit channel are made first
(lines 61-62); the check `j.ttl == 0` (line 64) comes after them. -/
def Start (cleanupInterval cleanupWorkers : Int) (j : Janitor) : Except String Started :=
  match NewTicker cleanupInterval with
  | Except.error e => Except.error e
  | Except.ok t =>
    let j1 : Janitor := { j with ticker := some t }
    let j2 : Janitor := { j1 with quit := Chan.opened }
    if j2.ttl = 0 then
      Except.ok { j := j2, spawned := [], logged := ["configured TTL was 0; disabling janitor"] }
    else
      Except.ok { j := j2, spawned := spawnLoop cleanupWorkers.toNat 0 cleanupWorkers [], logged := [] }

/-! ## Stop (lines 84-87) -/

/-- Line 85, `close(j.quit)`: panics on a nil and on a closed channel. -/
def closeQuit (j : Janitor) : Except String Janitor :=
  match j.quit with
  | Chan.nil => Except.error "close of nil channel"
  | Chan.closed => Except.error "close of closed channel"
  | Chan.opened => Except.ok { j with quit := Chan.closed }

/-- Line 86, `j.ticker.Stop()`: the ticker sends no more ticks; its channel is
neither closed nor drained. A nil ticker is a nil dereference. -/
def tickerStop (j : Janitor) : Except String Janitor :=
  match j.ticker with
  | none => Except.error "invalid memory address or nil pointer dereference"
  | some t => Except.ok { j with ticker := some { t with stopped := true } }

/-- The method `Stop`. -/
def Stop (j : Janitor) : Except String Janitor :=
  match closeQuit j with
  | Except.error e => Except.error e
  | Except.ok j1 => tickerStop j1

/-- A lifecycle call made on a janitor. -/
inductive Op where
  | start
  | stop
deriving DecidableEq, Repr

/-- The state in which a lifecycle call that returns leaves the quit channel. -/
def Op.quitAfter : Op → Chan
  | Op.start => Chan.opened
  | Op.stop => Chan.closed

/-- One lifecycle call; a panic is an error. -/
def applyOp (cleanupInterval cleanupWorkers : Int) (op : Op) (j : Janitor) :
    Except String Janitor :=
  match op with
  | Op.start =>
    match Start cleanupInterval cleanupWorkers j with
    | Except.error e => Except.error e
    | Except.ok r => Except.ok r.j
  | Op.stop => Stop j

/-- A sequence of lifecycle calls, none of which panics. -/
def runOps (cleanupInterval cleanupWorkers : Int) : List Op → Janitor → Except String Janitor
  | [], j => Except.ok j
  | op :: ops, j =>
    match applyOp cleanupInterval cleanupWorkers op j with
    | Except.error e => Except.error e
    | Except.ok j1 => runOps cleanupInterval cleanupWorkers ops j1

/-! ## The running janitor: workers, ticker and Stop interleaved -/

/-- Program counter of the call of `Stop`: not yet called, between lines 85 and
86, or returned. -/
inductive StopPc where
  | notCalled
  | closedQuit
  | returned
deriving DecidableEq, Repr

/-- A started janitor together with its worker goroutines. The workers read
`j.ticker.C` and `j.quit` through the captured pointer `j`, so all of them use
the one ticker and the one quit channel of `j`. -/
structure Sys where
  j : Janitor
  workers : List Pc
  stop : StopPc
  logged : List String
deriving DecidableEq, Repr

/-- The system right after `Start` returned. -/
def Sys.ofStarted (r : Started) : Sys :=
  { j := r.j, workers := r.spawned, stop := StopPc.notCalled, logged := r.logged }

/-- An atomic step of the running system. -/
inductive Action where
  /-- The running ticker puts a tick into its empty channel. -/
  | tick
  /-- The running ticker fires while its channel is full; the tick is dropped. -/
  | tickDropped
  /-- Worker `i` takes `case <-j.ticker.C` (line 73): it receives the tick. -/
  | recvTick (i : Nat)
  /-- Worker `i`, having received a tick, calls `deleteExpiredInvocations`
  (line 74): a sweep cycle starts. -/
  | callSweep (i : Nat)
  /-- The call of `deleteExpiredInvocations` of worker `i` returns. -/
  | sweepReturn (i : Nat)
  /-- Worker `i` takes `case <-j.quit`, logs and executes `break`. -/
  | recvQuit (i : Nat)
  /-- Line 85 of `Stop`. -/
  | stopClose
  /-- Line 86 of `Stop`, after which `Stop` has returned. -/
  | stopTicker
deriving DecidableEq, Repr

/-- Whether the action is the receive of a tick by a worker. -/
def Action.isRecvTick : Action → Bool
  | Action.recvTick _ => true
  | _ => false

/-- Whether the action starts a sweep cycle. -/
def Action.isCallSweep : Action → Bool
  | Action.callSweep _ => true
  | _ => false

/-- Whether the action delivers a tick into the ticker channel. -/
def Action.isTick : Action → Bool
  | Action.tick => true
  | _ => false

/-- Whether the action is the return of a sweep cycle. -/
def Action.isSweepReturn : Action → Bool
  | Action.sweepReturn _ => true
  | _ => false

/-- The janitor with the tick buffer of its ticker set to `b`. -/
def setC (j : Janitor) (t : Ticker) (b : Bool) : Janitor :=
  { j with ticker := some { t with C := b } }

/-- The step function; `none` when the action is not enabled. The receive of
line 73 and the call of line 74 are two steps, so that other goroutines can
run between them. In the quit branch the `break` of line 77 leaves the
`select` only, so the `for` of line 71 takes the worker back to the
`select`. -/
def step (a : Action) (s : Sys) : Option Sys :=
  match a with
  | Action.tick =>
    match s.j.ticker with
    | some t => if !t.stopped && !t.C then some { s with j := setC s.j t true } else none
    | none => none
  | Action.tickDropped =>
    match s.j.ticker with
    | some t => if !t.stopped && t.C then some s else none
    | none => none
  | Action.recvTick i =>
    match s.workers.get? i, s.j.ticker with
    | some Pc.select, some t =>
      if t.C then some { s with j := setC s.j t false, workers := s.workers.set i Pc.received }
      else none
    | _, _ => none
  | Action.callSweep i =>
    match s.workers.get? i with
    | some Pc.received => some { s with workers := s.workers.set i Pc.sweep }
    | _ => none
  | Action.sweepReturn i =>
    match s.workers.get? i with
    | some Pc.sweep => some { s with workers := s.workers.set i Pc.select }
    | _ => none
  | Action.recvQuit i =>
    match s.workers.get? i, s.j.quit with
    | some Pc.select, Chan.closed =>
      some { s with workers := s.workers.set i Pc.select,
                    logged := s.logged ++ ["Cleanup task 0 exiting."] }
    | _, _ => none
  | Action.stopClose =>
    match s.stop, closeQuit s.j with
    | StopPc.notCalled, Except.ok j1 => some { s with j := j1, stop := StopPc.closedQuit }
    | _, _ => none
  | Action.stopTicker =>
    match s.stop, tickerStop s.j with
    | StopPc.closedQuit, Except.ok j1 => some { s with j := j1, stop := StopPc.returned }
    | _, _ => none

/-- The running system that `Start` leaves behind; `none` when `Start` panics. -/
def startSys (cleanupInterval cleanupWorkers : Int) (j : Janitor) : Option Sys :=
  match Start cleanupInterval cleanupWorkers j with
  | Except.ok r => some (Sys.ofStarted r)
  | Except.error _ => none

/-- A run: the actions taken one after the other, each enabled in its turn. -/
def run : List Action → Sys → Option Sys
  | [], s => some s
  | a :: as, s =>
    match step a s with
    | some s1 => run as s1
    | none => none

/-- Whether a tick is buffered in the ticker channel of the janitor. -/
def tickBuffered (j : Janitor) : Bool :=
  match j.ticker with
  | some t => t.C
  | none => false

/-- Whether `Stop` was called on the ticker of the janitor. -/
def tickerStopped (j : Janitor) : Bool :=
  match j.ticker with
  | some t => t.stopped
  | none => false

/-- Number of ticks waiting in the ticker channel: 0 or 1. -/
def pending (s : Sys) : Nat := if tickBuffered s.j then 1 else 0

/-- Number of workers that received a tick and have not yet called
`deleteExpiredInvocations`. -/
def holding (s : Sys) : Nat := s.workers.count Pc.received

/-- Number of workers inside a sweep cycle. -/
def sweeping (s : Sys) : Nat := s.workers.count Pc.sweep

/-! ## A well-behaved store -/

/-- Modelled from the spec: a row of the metadata store, the record together
with the creation timestamp that the store tracks for it (section 3, the
"Expirable Record"; the table and the stores are not part of the source). -/
structure Row where
  inv : Invocation
  created : Int
deriving DecidableEq, Repr

/-- Modelled from the spec: the two backing stores, the rows of the metadata
store and the identifiers of the payloads held by the blob store. -/
structure Store where
  rows : List Row
  blobs : List String
deriving DecidableEq, Repr

/-- Modelled from the spec: the collaborators of section 6 on a `Store`.
The lookup returns, without error, the first `limit` rows created at or before
the cutoff, in storage order; both deletions succeed and remove what carries
the identifier; logging leaves the stores alone. -/
def storeEnv (ttlSeconds : Int) : Env Store where
  DeleteBlob := fun id s => (none, { s with blobs := s.blobs.filter (fun b => b ≠ id) })
  DeleteInvocation := fun id s =>
    (none, { s with rows := s.rows.filter (fun r => r.inv.InvocationID ≠ id) })
  LookupExpiredInvocations := fun cutoff limit s =>
    ((((s.rows.filter (fun r => r.created ≤ cutoff)).take limit.toNat).map Row.inv, none), s)
  Printf := fun _ s => s
  GetStorageTTLSeconds := ttlSeconds

/-- Modelled from the spec: a record is eligible for deletion iff its age
`now - created` is at least the TTL (section 3). -/
def isExpired (now ttl : Int) (r : Row) : Bool := decide (ttl ≤ now - r.created)

/-- The identifiers of the rows. -/
def rowIDs (rows : List Row) : List String := rows.map (fun r => r.inv.InvocationID)

/-- The list without its first `n` elements that satisfy `p`. -/
def dropFirstP (p : Row → Bool) : Nat → List Row → List Row
  | _, [] => []
  | 0, a :: l => a :: l
  | n + 1, a :: l => if p a then dropFirstP p n l else a :: dropFirstP p (n + 1) l

/-- A row with identifier `id`, payload `blob-id` and the given creation time. -/
def mkRow (id : String) (created : Int) : Row :=
  { inv := { InvocationID := id, BlobID := "blob-" ++ id }, created := created }

/-- The scenario of section 8, read at the third hour: fifteen rows created at
the first hour (aged 2h) and five created half an hour ago (aged 30m). -/
def scenarioStore : Store :=
  { rows := (["a01", "a02", "a03", "a04", "a05", "a06", "a07", "a08", "a09", "a10",
              "a11", "a12", "a13", "a14", "a15"].map (fun id => mkRow id 3600000000000))
            ++ (["b01", "b02", "b03", "b04", "b05"].map (fun id => mkRow id 9000000000000))
    blobs := ["blob-a01", "blob-a02", "blob-a03", "blob-a04", "blob-a05", "blob-a06",
              "blob-a07", "blob-a08", "blob-a09", "blob-a10", "blob-a11", "blob-a12",
              "blob-a13", "blob-a14", "blob-a15", "blob-b01", "blob-b02", "blob-b03",
              "blob-b04", "blob-b05"] }

/-! ## Lemmas on the call log -/

theorem deleteInvocation_log {σ : Type} (env : Env σ) (flag : Bool) (r : Invocation)
    (w : σ) (log : List Call) :
    (deleteInvocation (traced env) flag r (w, log)).2 = log ++ recordCalls r := by
  unfold deleteInvocation
  cases h1 : (env.DeleteBlob r.BlobID w).1 <;> cases flag <;>
    simp only [traced, h1, recordCalls] <;>
    (split <;> simp)

/-- Recording the calls does not change what `deleteInvocation` does to the
world. -/
theorem deleteInvocation_world {σ : Type} (env : Env σ) (flag : Bool) (r : Invocation)
    (w : σ) (log : List Call) :
    (deleteInvocation (traced env) flag r (w, log)).1 = deleteInvocation env flag r w := by
  unfold deleteInvocation
  cases h1 : (env.DeleteBlob r.BlobID w).1 <;> cases flag <;>
    simp only [traced, h1] <;>
    (split <;> simp_all)

theorem deleteEach_log {σ : Type} (env : Env σ) (flag : Bool) (rs : List Invocation) :
    ∀ (w : σ) (log : List Call),
      (deleteEach (traced env) flag rs (w, log)).2 = log ++ rs.flatMap recordCalls := by
  induction rs with
  | nil => intro w log; simp [deleteEach]
  | cons r rest ih =>
    intro w log
    have h := deleteInvocation_log env flag r w log
    rw [deleteEach]
    rw [show deleteInvocation (traced env) flag r (w, log)
        = ((deleteInvocation (traced env) flag r (w, log)).1,
           (deleteInvocation (traced env) flag r (w, log)).2) from rfl]
    rw [ih, h]
    simp [List.flatMap_cons, List.append_assoc]

theorem traced_lookup {σ : Type} (env : Env σ) (cutoff limit : Int) (w : σ)
    (log : List Call) :
    (traced env).LookupExpiredInvocations cutoff limit (w, log)
      = ((env.LookupExpiredInvocations cutoff limit w).1,
          ((env.LookupExpiredInvocations cutoff limit w).2,
            log ++ [Call.LookupExpiredInvocations cutoff limit])) := rfl

/-- Recording the calls does not change what the loop does to the world. -/
theorem deleteEach_world {σ : Type} (env : Env σ) (flag : Bool) (rs : List Invocation) :
    ∀ (w : σ) (log : List Call),
      (deleteEach (traced env) flag rs (w, log)).1 = deleteEach env flag rs w := by
  induction rs with
  | nil => intro w log; simp [deleteEach]
  | cons r rest ih =>
    intro w log
    have h := deleteInvocation_world env flag r w log
    rw [deleteEach, deleteEach]
    rw [show deleteInvocation (traced env) flag r (w, log)
        = ((deleteInvocation (traced env) flag r (w, log)).1,
           (deleteInvocation (traced env) flag r (w, log)).2) from rfl]
    rw [ih, h]

/-- Recording the calls does not change what a sweep cycle does to the world. -/
theorem deleteExpiredInvocations_world {σ : Type} (env : Env σ) (flag : Bool) (j : Janitor)
    (now : Int) (w : σ) (log : List Call) :
    (deleteExpiredInvocations (traced env) flag j now (w, log)).1
      = deleteExpiredInvocations env flag j now w := by
  unfold deleteExpiredInvocations
  cases herr : (env.LookupExpiredInvocations (cutoffAt j now) 10 w).1.2 with
  | none =>
    simp only [traced_lookup, herr]
    rw [deleteEach_world]
  | some e =>
    cases flag with
    | false =>
      simp only [traced_lookup, herr]
      simp only [Bool.false_eq_true, if_false]
      rw [deleteEach_world]
    | true =>
      simp only [traced_lookup, herr]
      simp [traced]

theorem wrap64_eq_zero_iff (x : Int) : wrap64 x = 0 ↔ (18446744073709551616 : Int) ∣ x := by
  unfold wrap64
  constructor
  · intro h
    apply Int.dvd_of_emod_eq_zero
    omega
  · intro h
    have := Int.emod_eq_zero_of_dvd h
    omega

/-- Since `10^9 = 2^9 * 5^9`, a multiple of `10^9` is a multiple of `2^64`
exactly when the factor is a multiple of `2^55`. -/
theorem dvd_mul_second_iff (s : Int) :
    (18446744073709551616 : Int) ∣ s * 1000000000 ↔ (36028797018963968 : Int) ∣ s := by
  have e1 : (18446744073709551616 : Int) = 512 * 36028797018963968 := by norm_num
  have e2 : s * 1000000000 = 512 * (s * 1953125) := by ring
  rw [e1, e2, mul_dvd_mul_iff_left (by norm_num : (512 : Int) ≠ 0)]
  constructor
  · intro h
    have hc : IsCoprime (36028797018963968 : Int) 1953125 := by
      rw [Int.isCoprime_iff_gcd_eq_one]
      rfl
    exact hc.dvd_of_dvd_mul_right h
  · intro h
    exact Dvd.dvd.mul_right h _

theorem wrap64_of_small (s : Int) (hlo : -9223372036 ≤ s) (hhi : s ≤ 9223372036) :
    wrap64 (s * 1000000000) = s * 1000000000 := by
  unfold wrap64
  omega

theorem wrap64_neg (ttl : Int) (hlo : -2 ^ 63 < ttl) (hhi : ttl < 2 ^ 63) :
    wrap64 (-1 * ttl) = -ttl := by
  unfold wrap64
  omega

theorem cutoffAt_eq (j : Janitor) (now : Int) (hlo : -2 ^ 63 < j.ttl) (hhi : j.ttl < 2 ^ 63) :
    cutoffAt j now = now - j.ttl := by
  unfold cutoffAt timeAdd
  rw [wrap64_neg j.ttl hlo hhi]
  omega

/-! ## The record deleter -/

/-- C1: whatever the two deletions return and whatever the logging flag is,
`deleteInvocation` makes exactly two store calls, `DeleteBlob` with the
record's `BlobID` first and `DeleteInvocation` with its `InvocationID`
second. -/
theorem deleteInvocation_calls {σ : Type} (env : Env σ) (logDeletionErrors : Bool)
    (invocation : Invocation) (w : σ) :
    (deleteInvocation (traced env) logDeletionErrors invocation (w, [])).2
      = [Call.DeleteBlob invocation.BlobID, Call.DeleteInvocation invocation.InvocationID] := by
  rw [deleteInvocation_log]
  simp [recordCalls]

/-! ## The sweep cycle -/

/-- When the lookup fails and `logDeletionErrors` is set, the lookup is the
only store call of the cycle. -/
theorem deleteExpiredInvocations_error_logged {σ : Type} (env : Env σ) (j : Janitor)
    (now : Int) (w : σ) (e : String)
    (herr : (env.LookupExpiredInvocations (cutoffAt j now) 10 w).1.2 = some e) :
    (deleteExpiredInvocations (traced env) true j now (w, [])).2
      = [Call.LookupExpiredInvocations (cutoffAt j now) 10] := by
  simp [deleteExpiredInvocations, traced_lookup, herr, traced]

/-- The store calls of a cycle whose early return is not taken: the lookup,
then the two calls of every returned record in order. -/
theorem deleteExpiredInvocations_log {σ : Type} (env : Env σ) (flag : Bool) (j : Janitor)
    (now : Int) (w : σ)
    (h : (env.LookupExpiredInvocations (cutoffAt j now) 10 w).1.2 = none ∨ flag = false) :
    (deleteExpiredInvocations (traced env) flag j now (w, [])).2
      = Call.LookupExpiredInvocations (cutoffAt j now) 10 ::
          (env.LookupExpiredInvocations (cutoffAt j now) 10 w).1.1.flatMap recordCalls := by
  unfold deleteExpiredInvocations
  cases herr : (env.LookupExpiredInvocations (cutoffAt j now) 10 w).1.2 with
  | none =>
    simp only [traced_lookup, herr]
    rw [deleteEach_log]
    simp
  | some e =>
    have hf : flag = false := by
      rcases h with h | h
      · rw [herr] at h; cases h
      · exact h
    subst hf
    simp only [traced_lookup, herr]
    simp only [Bool.false_eq_true, if_false]
    rw [deleteEach_log]
    simp

/-- C2: with `log_deletion_errors` off, a lookup that fails and returns a
record is followed by both deletions of that record; the cycle makes three
store calls instead of the lookup alone. -/
theorem deleteExpiredInvocations_error_unlogged_deletes :
    (deleteExpiredInvocations (traced failingLookupEnv) false
        (NewJanitor failingLookupEnv) 0 ((), [])).2
      = [Call.LookupExpiredInvocations (-3600000000000) 10,
         Call.DeleteBlob "blob-1", Call.DeleteInvocation "inv-1"] := by
  rw [deleteExpiredInvocations_log _ _ _ _ _ (Or.inr rfl)]
  have hc : cutoffAt (NewJanitor failingLookupEnv) 0 = -3600000000000 := by
    simp [cutoffAt, timeAdd, NewJanitor, failingLookupEnv, wrap64, Second]
  rw [hc]
  simp [failingLookupEnv, recordCalls]

/-- C3, as stated, fails for the TTL `-2^63`, which `NewJanitor` computes from
2^54 configured seconds: `-1 * ttl` wraps to `-2^63`, so the cutoff of the
lookup is `now - 2^63` and not `now - ttl`. -/
theorem deleteExpiredInvocations_cutoff_min_ttl :
    (NewJanitor (storeEnv 18014398509481984)).ttl = -9223372036854775808
    ∧ (deleteExpiredInvocations (traced (storeEnv 18014398509481984)) false
        (NewJanitor (storeEnv 18014398509481984)) 0 ({ rows := [], blobs := [] }, [])).2
      = [Call.LookupExpiredInvocations (-9223372036854775808) 10]
    ∧ (0 : Int) - (NewJanitor (storeEnv 18014398509481984)).ttl ≠ -9223372036854775808 := by
  have ht : (NewJanitor (storeEnv 18014398509481984)).ttl = -9223372036854775808 := by
    simp [NewJanitor, storeEnv, wrap64, Second]
  have hc : cutoffAt (NewJanitor (storeEnv 18014398509481984)) 0 = -9223372036854775808 := by
    simp [cutoffAt, timeAdd, ht, wrap64]
  refine ⟨ht, ?_, ?_⟩
  · rw [deleteExpiredInvocations_log _ _ _ _ _ (Or.inr rfl), hc]
    simp [storeEnv]
  · rw [ht]; decide

/-- C3 (amended): for every time `now`, every 64-bit TTL other than `-2^63`
and every list of records that the lookup returns without error, the store
calls of one sweep cycle are one `LookupExpiredInvocations(now - ttl, 10)`
followed by `DeleteBlob`, `DeleteInvocation` of each returned record, in the
order returned, whatever the deletions return and whatever the logging flag
is. -/
theorem deleteExpiredInvocations_calls {σ : Type} (env : Env σ) (logDeletionErrors : Bool)
    (j : Janitor) (now : Int) (w : σ)
    (hlo : -2 ^ 63 < j.ttl) (hhi : j.ttl < 2 ^ 63)
    (hok : (env.LookupExpiredInvocations (now - j.ttl) 10 w).1.2 = none) :
    (deleteExpiredInvocations (traced env) logDeletionErrors j now (w, [])).2
      = Call.LookupExpiredInvocations (now - j.ttl) 10 ::
          (env.LookupExpiredInvocations (now - j.ttl) 10 w).1.1.flatMap
            (fun r => [Call.DeleteBlob r.BlobID, Call.DeleteInvocation r.InvocationID]) := by
  have hc := cutoffAt_eq j now hlo hhi
  have h := deleteExpiredInvocations_log env logDeletionErrors j now w (Or.inl (by rw [hc]; exact hok))
  rw [h, hc]
  rfl

/-- Witness of C3 (amended): a TTL of one hour, a store with one row two hours
old and one row half an hour old, read at the third hour. -/
theorem deleteExpiredInvocations_calls_witness :
    (-2 ^ 63 < (NewJanitor (storeEnv 3600)).ttl ∧ (NewJanitor (storeEnv 3600)).ttl < 2 ^ 63)
    ∧ (deleteExpiredInvocations (traced (storeEnv 3600)) false (NewJanitor (storeEnv 3600))
        10800000000000
        ({ rows := [{ inv := { InvocationID := "i1", BlobID := "b1" }, created := 3600000000000 },
                    { inv := { InvocationID := "i2", BlobID := "b2" }, created := 9000000000000 }],
           blobs := ["b1", "b2"] }, [])).2
      = [Call.LookupExpiredInvocations 7200000000000 10,
         Call.DeleteBlob "b1", Call.DeleteInvocation "i1"] := by
  have ht : (NewJanitor (storeEnv 3600)).ttl = 3600000000000 := by
    simp [NewJanitor, storeEnv, wrap64, Second]
  have hlo : -2 ^ 63 < (NewJanitor (storeEnv 3600)).ttl := by rw [ht]; decide
  have hhi : (NewJanitor (storeEnv 3600)).ttl < 2 ^ 63 := by rw [ht]; decide
  refine ⟨⟨hlo, hhi⟩, ?_⟩
  rw [deleteExpiredInvocations_calls (storeEnv 3600) false (NewJanitor (storeEnv 3600))
    10800000000000 _ hlo hhi rfl]
  rw [ht]
  simp [storeEnv]

/-! ## The TTL computed by NewJanitor -/

/-- C10, as stated, fails: 2^55 configured seconds give the TTL 0, and
9223372037 configured seconds give a negative TTL, whose cutoff lies after
`now`. -/
theorem NewJanitor_wraps :
    ((36028797018963968 : Int) ≠ 0 ∧ (NewJanitor (storeEnv 36028797018963968)).ttl = 0)
    ∧ ((0 : Int) < 9223372037
        ∧ (NewJanitor (storeEnv 9223372037)).ttl = -9223372036709551616
        ∧ 0 < cutoffAt (NewJanitor (storeEnv 9223372037)) 0) := by
  have h1 : (NewJanitor (storeEnv 36028797018963968)).ttl = 0 := by
    simp [NewJanitor, storeEnv, wrap64, Second]
  have h2 : (NewJanitor (storeEnv 9223372037)).ttl = -9223372036709551616 := by
    simp [NewJanitor, storeEnv, wrap64, Second]
  refine ⟨⟨by decide, h1⟩, by decide, h2, ?_⟩
  simp [cutoffAt, timeAdd, h2, wrap64]

/-- C10 (amended): the TTL computed by `NewJanitor` from `s` configured seconds
is zero iff `s` is a multiple of 2^55, hence for `|s| < 2^55` iff `s = 0`; and
for `0 < s ≤ 9223372036` the TTL is `s * 10^9`, positive, and the cutoff of a
sweep cycle lies strictly before `now`. -/
theorem NewJanitor_ttl {σ : Type} (env : Env σ) :
    ((NewJanitor env).ttl = 0 ↔ (2 ^ 55 : Int) ∣ env.GetStorageTTLSeconds)
    ∧ (-2 ^ 55 < env.GetStorageTTLSeconds → env.GetStorageTTLSeconds < 2 ^ 55 →
        ((NewJanitor env).ttl = 0 ↔ env.GetStorageTTLSeconds = 0))
    ∧ (0 < env.GetStorageTTLSeconds → env.GetStorageTTLSeconds ≤ 9223372036 →
        (NewJanitor env).ttl = env.GetStorageTTLSeconds * 1000000000
        ∧ 0 < (NewJanitor env).ttl
        ∧ ∀ now : Int, cutoffAt (NewJanitor env) now < now) := by
  have hz : (NewJanitor env).ttl = 0 ↔ (2 ^ 55 : Int) ∣ env.GetStorageTTLSeconds := by
    show wrap64 (env.GetStorageTTLSeconds * Second) = 0 ↔ _
    rw [wrap64_eq_zero_iff, Second, dvd_mul_second_iff]
    norm_num
  refine ⟨hz, ?_, ?_⟩
  · intro hlo hhi
    rw [hz]
    constructor
    · intro hd
      have hd2 : (36028797018963968 : Int) ∣ env.GetStorageTTLSeconds := by
        have e : (2 ^ 55 : Int) = 36028797018963968 := by norm_num
        rw [e] at hd
        exact hd
      have e1 : (2 ^ 55 : Int) = 36028797018963968 := by norm_num
      rw [e1] at hlo hhi
      omega
    · intro h0
      rw [h0]
      exact dvd_zero _
  · intro hpos hle
    have ht : (NewJanitor env).ttl = env.GetStorageTTLSeconds * 1000000000 := by
      show wrap64 (env.GetStorageTTLSeconds * Second) = _
      rw [Second]
      exact wrap64_of_small _ (by omega) hle
    have hp : 0 < (NewJanitor env).ttl := by rw [ht]; omega
    refine ⟨ht, hp, ?_⟩
    intro now
    have hlt : (NewJanitor env).ttl < 2 ^ 63 := by
      rw [ht]
      have e : (2 ^ 63 : Int) = 9223372036854775808 := by norm_num
      rw [e]
      omega
    have hgt : -2 ^ 63 < (NewJanitor env).ttl := by
      have e : (2 ^ 63 : Int) = 9223372036854775808 := by norm_num
      rw [e]
      omega
    rw [cutoffAt_eq _ now hgt hlt]
    omega

/-- Witness of C10 (amended): one hour of configured TTL. -/
theorem NewJanitor_ttl_witness :
    ((0 : Int) < (storeEnv 3600).GetStorageTTLSeconds
      ∧ (storeEnv 3600).GetStorageTTLSeconds ≤ 9223372036)
    ∧ ((NewJanitor (storeEnv 3600)).ttl = (storeEnv 3600).GetStorageTTLSeconds * 1000000000
        ∧ 0 < (NewJanitor (storeEnv 3600)).ttl
        ∧ ∀ now : Int, cutoffAt (NewJanitor (storeEnv 3600)) now < now)
    ∧ ((-2 ^ 55 < (storeEnv 3600).GetStorageTTLSeconds
        ∧ (storeEnv 3600).GetStorageTTLSeconds < 2 ^ 55)
      ∧ ((NewJanitor (storeEnv 3600)).ttl = 0 ↔ (storeEnv 3600).GetStorageTTLSeconds = 0)) := by
  have hs : (storeEnv 3600).GetStorageTTLSeconds = 3600 := rfl
  have h1 : (0 : Int) < (storeEnv 3600).GetStorageTTLSeconds := by rw [hs]; decide
  have h2 : (storeEnv 3600).GetStorageTTLSeconds ≤ 9223372036 := by rw [hs]; decide
  have h3 : -2 ^ 55 < (storeEnv 3600).GetStorageTTLSeconds := by rw [hs]; decide
  have h4 : (storeEnv 3600).GetStorageTTLSeconds < 2 ^ 55 := by rw [hs]; decide
  exact ⟨⟨h1, h2⟩, (NewJanitor_ttl (storeEnv 3600)).2.2 h1 h2,
    ⟨h3, h4⟩, (NewJanitor_ttl (storeEnv 3600)).2.1 h3 h4⟩


theorem spawnLoop_eq (fuel : Nat) : ∀ (i n : Int) (gs : List Pc),
    spawnLoop fuel i n gs = gs ++ List.replicate (min fuel (n - i).toNat) Pc.select := by
  induction fuel with
  | zero => intro i n gs; simp [spawnLoop]
  | succ fuel ih =>
    intro i n gs
    rw [spawnLoop]
    by_cases h : i < n
    · rw [if_pos h, ih]
      have e : min (fuel + 1) (n - i).toNat = min fuel (n - (i + 1)).toNat + 1 := by omega
      rw [e, List.replicate_succ]
      simp
    · rw [if_neg h]
      have e : (n - i).toNat = 0 := by omega
      simp [e]

/-- The loop of line 69 ends by its own condition: fuel beyond the configured
worker count changes nothing. -/
theorem spawnLoop_fuel (n : Int) (extra : Nat) :
    spawnLoop (n.toNat + extra) 0 n [] = spawnLoop n.toNat 0 n [] := by
  rw [spawnLoop_eq, spawnLoop_eq]
  simp

theorem Start_enabled (ci cw : Int) (j : Janitor) (httl : j.ttl ≠ 0) (hci : 0 < ci) :
    Start ci cw j = Except.ok
      { j := { ticker := some { d := ci, stopped := false, C := false },
               quit := Chan.opened, ttl := j.ttl },
        spawned := List.replicate cw.toNat Pc.select, logged := [] } := by
  have hn : ¬ ci ≤ 0 := by omega
  simp [Start, NewTicker, hn, httl, spawnLoop_eq]

theorem Start_ttl_zero_eq (ci cw : Int) (j : Janitor) (httl : j.ttl = 0) (hci : 0 < ci) :
    Start ci cw j = Except.ok
      { j := { ticker := some { d := ci, stopped := false, C := false },
               quit := Chan.opened, ttl := j.ttl },
        spawned := [], logged := ["configured TTL was 0; disabling janitor"] } := by
  have hn : ¬ ci ≤ 0 := by omega
  simp [Start, NewTicker, hn, httl]

/-- Overwriting position `i`, which holds `a`, with `b` moves one occurrence
from `a` to `b`. -/
theorem count_set_pc (l : List Pc) (a b c : Pc) : ∀ (i : Nat), l.get? i = some a →
    (l.set i b).count c + (if a = c then 1 else 0) = l.count c + (if b = c then 1 else 0) := by
  induction l with
  | nil => intro i h; simp at h
  | cons x l ih =>
    intro i h
    cases i with
    | zero =>
      simp at h
      subst h
      simp only [List.set_cons_zero, List.count_cons, beq_iff_eq]
      omega
    | succ i =>
      simp at h
      have := ih i (by simpa using h)
      simp only [List.set_cons_succ, List.count_cons]
      omega

theorem set_same (l : List Pc) : ∀ (i : Nat) (p : Pc), l.get? i = some p → l.set i p = l := by
  induction l with
  | nil => intro i p h; simp
  | cons a l ih =>
    intro i p h
    cases i with
    | zero => simp at h; subst h; simp
    | succ i => simp at h; simp [ih i p (by simpa using h)]

/-- What each enabled step does to the state. -/
theorem step_spec (a : Action) (s s1 : Sys) (h : step a s = some s1) :
    match a with
    | Action.tick => ∃ t, s.j.ticker = some t ∧ t.stopped = false ∧ t.C = false
        ∧ s1 = { s with j := setC s.j t true }
    | Action.tickDropped => ∃ t, s.j.ticker = some t ∧ t.stopped = false ∧ t.C = true ∧ s1 = s
    | Action.recvTick i => ∃ t, s.j.ticker = some t ∧ t.C = true
        ∧ s.workers.get? i = some Pc.select
        ∧ s1 = { s with j := setC s.j t false, workers := s.workers.set i Pc.received }
    | Action.callSweep i => s.workers.get? i = some Pc.received
        ∧ s1 = { s with workers := s.workers.set i Pc.sweep }
    | Action.sweepReturn i => s.workers.get? i = some Pc.sweep
        ∧ s1 = { s with workers := s.workers.set i Pc.select }
    | Action.recvQuit i => s.workers.get? i = some Pc.select ∧ s.j.quit = Chan.closed
        ∧ s1 = { s with logged := s.logged ++ ["Cleanup task 0 exiting."] }
    | Action.stopClose => s.stop = StopPc.notCalled ∧ s.j.quit = Chan.opened
        ∧ s1 = { s with j := { s.j with quit := Chan.closed }, stop := StopPc.closedQuit }
    | Action.stopTicker => ∃ t, s.stop = StopPc.closedQuit ∧ s.j.ticker = some t
        ∧ s1 = { s with j := { s.j with ticker := some { t with stopped := true } },
                        stop := StopPc.returned } := by
  cases a with
  | tick =>
    simp only [step] at h
    split at h
    · rename_i t ht
      split at h
      · rename_i hc
        simp at hc
        exact ⟨t, ht, hc.1, hc.2, by simpa using h.symm⟩
      · cases h
    · cases h
  | tickDropped =>
    simp only [step] at h
    split at h
    · rename_i t ht
      split at h
      · rename_i hc
        simp at hc
        exact ⟨t, ht, hc.1, hc.2, by simpa using h.symm⟩
      · cases h
    · cases h
  | recvTick i =>
    simp only [step] at h
    split at h
    · rename_i t hw ht
      split at h
      · rename_i hc
        exact ⟨t, ht, hc, hw, by simpa using h.symm⟩
      · cases h
    · cases h
  | callSweep i =>
    simp only [step] at h
    split at h
    · rename_i hw
      exact ⟨hw, by simpa using h.symm⟩
    · cases h
  | sweepReturn i =>
    simp only [step] at h
    split at h
    · rename_i hw
      exact ⟨hw, by simpa using h.symm⟩
    · cases h
  | recvQuit i =>
    simp only [step] at h
    split at h
    · rename_i hw hq
      refine ⟨hw, hq, ?_⟩
      rw [set_same _ _ _ hw] at h
      simpa using h.symm
    · cases h
  | stopClose =>
    simp only [step] at h
    split at h
    · rename_i j1 hs hc
      have hq : s.j.quit = Chan.opened ∧ j1 = { s.j with quit := Chan.closed } := by
        unfold closeQuit at hc
        split at hc
        · cases hc
        · cases hc
        · rename_i hq
          exact ⟨hq, by simpa using hc.symm⟩
      refine ⟨hs, hq.1, ?_⟩
      rw [← hq.2]
      simpa using h.symm
    · cases h
  | stopTicker =>
    simp only [step] at h
    split at h
    · rename_i j1 hs hc
      unfold tickerStop at hc
      split at hc
      · cases hc
      · rename_i t ht
        refine ⟨t, hs, ht, ?_⟩
        have : j1 = { s.j with ticker := some { t with stopped := true } } := by
          simpa using hc.symm
        rw [← this]
        simpa using h.symm
    · cases h

/-- One step: a delivered tick is either still in the channel or was received. -/
theorem step_tick_balance (a : Action) (s s1 : Sys) (h : step a s = some s1) :
    (if a.isTick then 1 else 0) + pending s = (if a.isRecvTick then 1 else 0) + pending s1 := by
  have hs := step_spec a s s1 h
  cases a with
  | tick =>
    obtain ⟨t, ht, _, hc, rfl⟩ := hs
    simp [pending, tickBuffered, ht, hc, setC, Action.isTick, Action.isRecvTick]
  | tickDropped =>
    obtain ⟨t, ht, _, hc, rfl⟩ := hs
    simp [Action.isTick, Action.isRecvTick]
  | recvTick i =>
    obtain ⟨t, ht, hc, _, rfl⟩ := hs
    simp [pending, tickBuffered, ht, hc, setC, Action.isTick, Action.isRecvTick]
  | callSweep i =>
    obtain ⟨_, rfl⟩ := hs
    simp [pending, Action.isTick, Action.isRecvTick]
  | sweepReturn i =>
    obtain ⟨_, rfl⟩ := hs
    simp [pending, Action.isTick, Action.isRecvTick]
  | recvQuit i =>
    obtain ⟨_, _, rfl⟩ := hs
    simp [pending, Action.isTick, Action.isRecvTick]
  | stopClose =>
    obtain ⟨_, _, rfl⟩ := hs
    simp [pending, tickBuffered, Action.isTick, Action.isRecvTick]
  | stopTicker =>
    obtain ⟨t, _, ht, rfl⟩ := hs
    simp [pending, tickBuffered, ht, Action.isTick, Action.isRecvTick]

/-- One step: a worker that received a tick either still holds it or has called
`deleteExpiredInvocations`. -/
theorem step_recv_balance (a : Action) (s s1 : Sys) (h : step a s = some s1) :
    (if a.isRecvTick then 1 else 0) + holding s
      = (if a.isCallSweep then 1 else 0) + holding s1 := by
  have hs := step_spec a s s1 h
  cases a with
  | tick =>
    obtain ⟨t, _, _, _, rfl⟩ := hs
    simp [holding, Action.isCallSweep, Action.isRecvTick]
  | tickDropped =>
    obtain ⟨t, _, _, _, rfl⟩ := hs
    simp [Action.isCallSweep, Action.isRecvTick]
  | recvTick i =>
    obtain ⟨t, _, _, hw, rfl⟩ := hs
    have := count_set_pc _ Pc.select Pc.received Pc.received i hw
    simp [holding, Action.isCallSweep, Action.isRecvTick] at this ⊢
    omega
  | callSweep i =>
    obtain ⟨hw, rfl⟩ := hs
    have := count_set_pc _ Pc.received Pc.sweep Pc.received i hw
    simp [holding, Action.isCallSweep, Action.isRecvTick] at this ⊢
    omega
  | sweepReturn i =>
    obtain ⟨hw, rfl⟩ := hs
    have := count_set_pc _ Pc.sweep Pc.select Pc.received i hw
    simp [holding, Action.isCallSweep, Action.isRecvTick] at this ⊢
    omega
  | recvQuit i =>
    obtain ⟨_, _, rfl⟩ := hs
    simp [holding, Action.isCallSweep, Action.isRecvTick]
  | stopClose =>
    obtain ⟨_, _, rfl⟩ := hs
    simp [holding, Action.isCallSweep, Action.isRecvTick]
  | stopTicker =>
    obtain ⟨t, _, _, rfl⟩ := hs
    simp [holding, Action.isCallSweep, Action.isRecvTick]

/-- One step: a call of `deleteExpiredInvocations` puts exactly one worker into
a sweep cycle, and a return takes exactly one out. -/
theorem step_sweep_balance (a : Action) (s s1 : Sys) (h : step a s = some s1) :
    (if a.isCallSweep then 1 else 0) + sweeping s
      = (if a.isSweepReturn then 1 else 0) + sweeping s1 := by
  have hs := step_spec a s s1 h
  cases a with
  | tick =>
    obtain ⟨t, _, _, _, rfl⟩ := hs
    simp [sweeping, Action.isSweepReturn, Action.isCallSweep]
  | tickDropped =>
    obtain ⟨t, _, _, _, rfl⟩ := hs
    simp [Action.isSweepReturn, Action.isCallSweep]
  | recvTick i =>
    obtain ⟨t, _, _, hw, rfl⟩ := hs
    have := count_set_pc _ Pc.select Pc.received Pc.sweep i hw
    simp [sweeping, Action.isSweepReturn, Action.isCallSweep] at this ⊢
    omega
  | callSweep i =>
    obtain ⟨hw, rfl⟩ := hs
    have := count_set_pc _ Pc.received Pc.sweep Pc.sweep i hw
    simp [sweeping, Action.isSweepReturn, Action.isCallSweep] at this ⊢
    omega
  | sweepReturn i =>
    obtain ⟨hw, rfl⟩ := hs
    have := count_set_pc _ Pc.sweep Pc.select Pc.sweep i hw
    simp [sweeping, Action.isSweepReturn, Action.isCallSweep] at this ⊢
    omega
  | recvQuit i =>
    obtain ⟨_, _, rfl⟩ := hs
    simp [sweeping, Action.isSweepReturn, Action.isCallSweep]
  | stopClose =>
    obtain ⟨_, _, rfl⟩ := hs
    simp [sweeping, Action.isSweepReturn, Action.isCallSweep]
  | stopTicker =>
    obtain ⟨t, _, _, rfl⟩ := hs
    simp [sweeping, Action.isSweepReturn, Action.isCallSweep]

/-- One step keeps the number of workers, lets no worker exit and keeps the
ticker field set. -/
theorem step_workers (a : Action) (s s1 : Sys) (h : step a s = some s1) :
    s1.workers.length = s.workers.length
    ∧ (Pc.exited ∉ s.workers → Pc.exited ∉ s1.workers)
    ∧ (s.j.ticker.isSome = true → s1.j.ticker.isSome = true) := by
  have hs := step_spec a s s1 h
  cases a with
  | tick => obtain ⟨t, _, _, _, rfl⟩ := hs; simp [setC]
  | tickDropped => obtain ⟨t, _, _, _, rfl⟩ := hs; simp
  | recvTick i =>
    obtain ⟨t, _, _, hw, rfl⟩ := hs
    refine ⟨by simp, ?_, by simp [setC]⟩
    intro hn hm
    rcases List.mem_or_eq_of_mem_set hm with h1 | h1
    · exact hn h1
    · cases h1
  | callSweep i =>
    obtain ⟨hw, rfl⟩ := hs
    refine ⟨by simp, ?_, by simp⟩
    intro hn hm
    rcases List.mem_or_eq_of_mem_set hm with h1 | h1
    · exact hn h1
    · cases h1
  | sweepReturn i =>
    obtain ⟨hw, rfl⟩ := hs
    refine ⟨by simp, ?_, by simp⟩
    intro hn hm
    rcases List.mem_or_eq_of_mem_set hm with h1 | h1
    · exact hn h1
    · cases h1
  | recvQuit i => obtain ⟨_, _, rfl⟩ := hs; simp
  | stopClose => obtain ⟨_, _, rfl⟩ := hs; simp
  | stopTicker => obtain ⟨t, _, _, rfl⟩ := hs; simp

/-- One step: a stopped ticker stays stopped and delivers no tick, and once
`Stop` has returned the ticker is stopped. -/
theorem step_stopped (a : Action) (s s1 : Sys) (h : step a s = some s1) :
    (tickerStopped s.j = true → tickerStopped s1.j = true ∧ a.isTick = false)
    ∧ ((s.stop = StopPc.returned → tickerStopped s.j = true) →
        (s1.stop = StopPc.returned → tickerStopped s1.j = true))
    ∧ (s.stop = StopPc.returned → s1.stop = StopPc.returned) := by
  have hs := step_spec a s s1 h
  cases a with
  | tick =>
    obtain ⟨t, ht, hst, _, rfl⟩ := hs
    simp [tickerStopped, ht, hst, setC, Action.isTick]
  | tickDropped =>
    obtain ⟨t, ht, hst, _, rfl⟩ := hs
    simp [Action.isTick]
  | recvTick i =>
    obtain ⟨t, ht, _, _, rfl⟩ := hs
    simp [tickerStopped, ht, setC, Action.isTick]
  | callSweep i =>
    obtain ⟨_, rfl⟩ := hs
    simp [Action.isTick]
  | sweepReturn i =>
    obtain ⟨_, rfl⟩ := hs
    simp [Action.isTick]
  | recvQuit i =>
    obtain ⟨_, _, rfl⟩ := hs
    simp [Action.isTick]
  | stopClose =>
    obtain ⟨hn, _, rfl⟩ := hs
    simp [tickerStopped, Action.isTick, hn]
  | stopTicker =>
    obtain ⟨t, hn, ht, rfl⟩ := hs
    simp [tickerStopped, ht, Action.isTick, hn]

/-! ## Runs -/

theorem run_cons (a : Action) (as : List Action) (s s2 : Sys) (h : run (a :: as) s = some s2) :
    ∃ s1, step a s = some s1 ∧ run as s1 = some s2 := by
  rw [run] at h
  cases hs : step a s with
  | none => rw [hs] at h; cases h
  | some s1 => rw [hs] at h; exact ⟨s1, rfl, h⟩

theorem run_tick_balance (as : List Action) : ∀ (s s1 : Sys), run as s = some s1 →
    as.countP Action.isTick + pending s = as.countP Action.isRecvTick + pending s1 := by
  induction as with
  | nil =>
    intro s s1 h
    simp [run] at h
    subst h
    simp
  | cons a as ih =>
    intro s s2 h
    obtain ⟨s1, h1, h2⟩ := run_cons a as s s2 h
    have e1 := step_tick_balance a s s1 h1
    have e2 := ih s1 s2 h2
    rw [List.countP_cons, List.countP_cons]
    omega

theorem run_recv_balance (as : List Action) : ∀ (s s1 : Sys), run as s = some s1 →
    as.countP Action.isRecvTick + holding s = as.countP Action.isCallSweep + holding s1 := by
  induction as with
  | nil =>
    intro s s1 h
    simp [run] at h
    subst h
    simp
  | cons a as ih =>
    intro s s2 h
    obtain ⟨s1, h1, h2⟩ := run_cons a as s s2 h
    have e1 := step_recv_balance a s s1 h1
    have e2 := ih s1 s2 h2
    rw [List.countP_cons, List.countP_cons]
    omega

theorem run_sweep_balance (as : List Action) : ∀ (s s1 : Sys), run as s = some s1 →
    as.countP Action.isCallSweep + sweeping s
      = as.countP Action.isSweepReturn + sweeping s1 := by
  induction as with
  | nil =>
    intro s s1 h
    simp [run] at h
    subst h
    simp
  | cons a as ih =>
    intro s s2 h
    obtain ⟨s1, h1, h2⟩ := run_cons a as s s2 h
    have e1 := step_sweep_balance a s s1 h1
    have e2 := ih s1 s2 h2
    rw [List.countP_cons, List.countP_cons]
    omega

theorem run_workers (as : List Action) : ∀ (s s1 : Sys), run as s = some s1 →
    s1.workers.length = s.workers.length
    ∧ (Pc.exited ∉ s.workers → Pc.exited ∉ s1.workers)
    ∧ (s.j.ticker.isSome = true → s1.j.ticker.isSome = true) := by
  induction as with
  | nil =>
    intro s s1 h
    simp [run] at h
    subst h
    simp
  | cons a as ih =>
    intro s s2 h
    obtain ⟨s1, h1, h2⟩ := run_cons a as s s2 h
    have e1 := step_workers a s s1 h1
    have e2 := ih s1 s2 h2
    exact ⟨e2.1.trans e1.1, fun hn => e2.2.1 (e1.2.1 hn), fun hn => e2.2.2 (e1.2.2 hn)⟩

theorem run_returned_stopped (as : List Action) : ∀ (s s1 : Sys), run as s = some s1 →
    (s.stop = StopPc.returned → tickerStopped s.j = true) →
    (s1.stop = StopPc.returned → tickerStopped s1.j = true) := by
  induction as with
  | nil =>
    intro s s1 h
    simp [run] at h
    subst h
    exact id
  | cons a as ih =>
    intro s s2 h hinv
    obtain ⟨s1, h1, h2⟩ := run_cons a as s s2 h
    exact ih s1 s2 h2 ((step_stopped a s s1 h1).2.1 hinv)

theorem run_stopped_no_tick (as : List Action) : ∀ (s s1 : Sys), run as s = some s1 →
    tickerStopped s.j = true → as.countP Action.isTick = 0 := by
  induction as with
  | nil => intro s s1 _ _; simp
  | cons a as ih =>
    intro s s2 h hst
    obtain ⟨s1, h1, h2⟩ := run_cons a as s s2 h
    have e1 := (step_stopped a s s1 h1).1 hst
    have e2 := ih s1 s2 h2 e1.1
    rw [List.countP_cons, e2, e1.2]
    simp

/-- Without workers no tick is ever received and no sweep cycle ever starts. -/
theorem run_no_workers (as : List Action) : ∀ (s s1 : Sys), run as s = some s1 →
    s.workers = [] →
    s1.workers = [] ∧ as.countP Action.isRecvTick = 0 ∧ as.countP Action.isCallSweep = 0 := by
  induction as with
  | nil =>
    intro s s1 h hw
    simp [run] at h
    subst h
    exact ⟨hw, by simp, by simp⟩
  | cons a as ih =>
    intro s s2 h hw
    obtain ⟨s1, h1, h2⟩ := run_cons a as s s2 h
    have hl := (step_workers a s s1 h1).1
    have hw1 : s1.workers = [] := by
      apply List.eq_nil_of_length_eq_zero
      rw [hl, hw]
      rfl
    have e2 := ih s1 s2 h2 hw1
    refine ⟨e2.1, ?_, ?_⟩
    · rw [List.countP_cons, e2.2.1]
      have hs := step_spec a s s1 h1
      cases a with
      | recvTick i =>
        obtain ⟨t, _, _, hwi, _⟩ := hs
        rw [hw] at hwi
        simp at hwi
      | tick => simp [Action.isRecvTick]
      | tickDropped => simp [Action.isRecvTick]
      | callSweep i => simp [Action.isRecvTick]
      | sweepReturn i => simp [Action.isRecvTick]
      | recvQuit i => simp [Action.isRecvTick]
      | stopClose => simp [Action.isRecvTick]
      | stopTicker => simp [Action.isRecvTick]
    · rw [List.countP_cons, e2.2.2]
      have hs := step_spec a s s1 h1
      cases a with
      | callSweep i =>
        obtain ⟨hwi, _⟩ := hs
        rw [hw] at hwi
        simp at hwi
      | tick => simp [Action.isCallSweep]
      | tickDropped => simp [Action.isCallSweep]
      | recvTick i => simp [Action.isCallSweep]
      | sweepReturn i => simp [Action.isCallSweep]
      | recvQuit i => simp [Action.isCallSweep]
      | stopClose => simp [Action.isCallSweep]
      | stopTicker => simp [Action.isCallSweep]

/-! ## Start with the disabled TTL -/

/-- C4, as stated, fails: with the default flags and a TTL of 0, `Start`
returns with the ticker field set to a running ticker. -/
theorem Start_ttl_zero_creates_ticker :
    (NewJanitor (storeEnv 0)).ttl = 0
    ∧ Start cleanupIntervalDefault cleanupWorkersDefault (NewJanitor (storeEnv 0))
      = Except.ok
          { j := { ticker := some { d := 600000000000, stopped := false, C := false },
                   quit := Chan.opened, ttl := 0 },
            spawned := [],
            logged := ["configured TTL was 0; disabling janitor"] } :=
  ⟨by decide, rfl⟩

/-- C4 (amended): for every janitor whose TTL is 0 and every positive cleanup
interval, `Start` spawns no worker, so that no tick is ever received and no
sweep cycle ever starts; it does create the ticker and the quit channel, which
it makes before it looks at the TTL. -/
theorem Start_disabled (cleanupInterval cleanupWorkers : Int) (j : Janitor)
    (httl : j.ttl = 0) (hci : 0 < cleanupInterval) :
    ∃ r, Start cleanupInterval cleanupWorkers j = Except.ok r
      ∧ r.spawned = []
      ∧ r.j.ticker = some { d := cleanupInterval, stopped := false, C := false }
      ∧ r.j.quit = Chan.opened
      ∧ ∀ (as : List Action) (s : Sys), run as (Sys.ofStarted r) = some s →
          s.workers = [] ∧ as.countP Action.isRecvTick = 0
          ∧ as.countP Action.isCallSweep = 0 := by
  refine ⟨_, Start_ttl_zero_eq cleanupInterval cleanupWorkers j httl hci, rfl, rfl, rfl, ?_⟩
  intro as s h
  exact run_no_workers as _ s h rfl

/-- Witness of C4 (amended): the default flags and a configured TTL of 0. -/
theorem Start_disabled_witness :
    ((NewJanitor (storeEnv 0)).ttl = 0 ∧ 0 < cleanupIntervalDefault)
    ∧ ∃ r, Start cleanupIntervalDefault cleanupWorkersDefault (NewJanitor (storeEnv 0))
          = Except.ok r
      ∧ r.spawned = []
      ∧ r.j.ticker = some { d := cleanupIntervalDefault, stopped := false, C := false }
      ∧ r.j.quit = Chan.opened
      ∧ ∀ (as : List Action) (s : Sys), run as (Sys.ofStarted r) = some s →
          s.workers = [] ∧ as.countP Action.isRecvTick = 0
          ∧ as.countP Action.isCallSweep = 0 :=
  ⟨⟨by decide, by decide⟩,
    Start_disabled cleanupIntervalDefault cleanupWorkersDefault (NewJanitor (storeEnv 0))
      (by decide) (by decide)⟩


/-- A `Start` that returns had a positive interval; it leaves a running ticker
with an empty channel, an open quit channel, and one worker at the `select`
per configured worker unless the TTL is 0. -/
theorem startSys_some (ci cw : Int) (j : Janitor) (s0 : Sys)
    (h : startSys ci cw j = some s0) :
    0 < ci ∧ s0 =
      { j := { ticker := some { d := ci, stopped := false, C := false },
               quit := Chan.opened, ttl := j.ttl },
        workers := if j.ttl = 0 then [] else List.replicate cw.toNat Pc.select,
        stop := StopPc.notCalled,
        logged := if j.ttl = 0 then ["configured TTL was 0; disabling janitor"] else [] } := by
  by_cases hci : ci ≤ 0
  · simp [startSys, Start, NewTicker, hci] at h
  · have hpos : 0 < ci := by omega
    refine ⟨hpos, ?_⟩
    by_cases httl : j.ttl = 0
    · rw [startSys, Start_ttl_zero_eq ci cw j httl hpos] at h
      simp only [Option.some.injEq] at h
      rw [← h]
      simp [Sys.ofStarted, httl]
    · rw [startSys, Start_enabled ci cw j httl hpos] at h
      simp only [Option.some.injEq] at h
      rw [← h]
      simp [Sys.ofStarted, httl]

/-! ## Stop and the workers -/

/-- C5, as stated, fails: a worker that received a tick (line 73) before
`Stop` ran calls `deleteExpiredInvocations` (line 74) after `Stop` has
returned, with the quit channel closed, the ticker stopped and no tick
buffered. -/
theorem sweep_called_after_Stop :
    (startSys cleanupIntervalDefault cleanupWorkersDefault (NewJanitor (storeEnv 3600))).bind
        (run [Action.tick, Action.recvTick 0, Action.stopClose, Action.stopTicker])
      = some { j := { ticker := some { d := 600000000000, stopped := true, C := false },
                      quit := Chan.closed, ttl := 3600000000000 },
               workers := [Pc.received], stop := StopPc.returned, logged := [] }
    ∧ step (Action.callSweep 0)
        { j := { ticker := some { d := 600000000000, stopped := true, C := false },
                 quit := Chan.closed, ttl := 3600000000000 },
          workers := [Pc.received], stop := StopPc.returned, logged := [] }
      = some { j := { ticker := some { d := 600000000000, stopped := true, C := false },
                      quit := Chan.closed, ttl := 3600000000000 },
               workers := [Pc.sweep], stop := StopPc.returned, logged := [] } := by
  decide

/-- C5 (amended): in every run of a started janitor, from any state in which
`Stop` has returned, no further tick is delivered, at most one tick is still
received (the one buffered in the ticker channel, if any), and the sweep
cycles that start are exactly those of the workers that had received a tick
without yet calling `deleteExpiredInvocations` and of the buffered tick, as
far as the run gets to them; so at most that many start, and none when no
worker holds a tick and none is buffered. -/
theorem sweeps_after_Stop (cleanupInterval cleanupWorkers : Int) (j : Janitor)
    (as1 as2 : List Action) (s0 s1 s2 : Sys)
    (hstart : startSys cleanupInterval cleanupWorkers j = some s0)
    (h1 : run as1 s0 = some s1)
    (hret : s1.stop = StopPc.returned)
    (h2 : run as2 s1 = some s2) :
    as2.countP Action.isTick = 0
    ∧ as2.countP Action.isRecvTick ≤ (if tickBuffered s1.j then 1 else 0)
    ∧ as2.countP Action.isCallSweep + holding s2 + (if tickBuffered s2.j then 1 else 0)
        = holding s1 + (if tickBuffered s1.j then 1 else 0)
    ∧ as2.countP Action.isCallSweep ≤ holding s1 + (if tickBuffered s1.j then 1 else 0) := by
  obtain ⟨_, rfl⟩ := startSys_some cleanupInterval cleanupWorkers j s0 hstart
  have hst : tickerStopped s1.j = true :=
    run_returned_stopped as1 _ s1 h1 (by intro h; cases h) hret
  have hb := run_tick_balance as2 s1 s2 h2
  have hr := run_recv_balance as2 s1 s2 h2
  have hn := run_stopped_no_tick as2 s1 s2 h2 hst
  have hp1 : pending s1 = (if tickBuffered s1.j then 1 else 0) := rfl
  have hp2 : pending s2 = (if tickBuffered s2.j then 1 else 0) := rfl
  rw [← hp1, ← hp2]
  refine ⟨hn, ?_, ?_, ?_⟩ <;> omega

/-- Witness of C5 (amended): the default flags, a TTL of one hour, one worker.
The worker receives a first tick, a second tick is buffered, `Stop` runs; after
it the worker starts two sweep cycles, one for the tick it held and one for the
buffered tick. -/
theorem sweeps_after_Stop_witness :
    List.countP Action.isCallSweep
        [Action.callSweep 0, Action.sweepReturn 0, Action.recvTick 0, Action.callSweep 0] = 2
    ∧ holding
        { j := { ticker := some { d := 600000000000, stopped := true, C := true },
                 quit := Chan.closed, ttl := 3600000000000 },
          workers := [Pc.received], stop := StopPc.returned, logged := [] } = 1
    ∧ List.countP Action.isCallSweep
        [Action.callSweep 0, Action.sweepReturn 0, Action.recvTick 0, Action.callSweep 0]
      ≤ holding
          { j := { ticker := some { d := 600000000000, stopped := true, C := true },
                   quit := Chan.closed, ttl := 3600000000000 },
            workers := [Pc.received], stop := StopPc.returned, logged := [] }
        + (if tickBuffered
              ({ ticker := some { d := 600000000000, stopped := true, C := true },
                 quit := Chan.closed, ttl := 3600000000000 } : Janitor) then 1 else 0) :=
  ⟨by decide, by decide,
    (sweeps_after_Stop cleanupIntervalDefault cleanupWorkersDefault
      (NewJanitor (storeEnv 3600))
      [Action.tick, Action.recvTick 0, Action.tick, Action.stopClose, Action.stopTicker]
      [Action.callSweep 0, Action.sweepReturn 0, Action.recvTick 0, Action.callSweep 0]
      { j := { ticker := some { d := 600000000000, stopped := false, C := false },
               quit := Chan.opened, ttl := 3600000000000 },
        workers := [Pc.select], stop := StopPc.notCalled, logged := [] }
      { j := { ticker := some { d := 600000000000, stopped := true, C := true },
               quit := Chan.closed, ttl := 3600000000000 },
        workers := [Pc.received], stop := StopPc.returned, logged := [] }
      { j := { ticker := some { d := 600000000000, stopped := true, C := false },
               quit := Chan.closed, ttl := 3600000000000 },
        workers := [Pc.sweep], stop := StopPc.returned, logged := [] }
      (by decide) (by decide) rfl (by decide)).2.2.2⟩

/-- C6: a worker that takes the quit branch is back at the `select`, not
exited: after `Start`, `Stop` and one quit branch the only worker is at the
`select`, and it can take the quit branch again. -/
theorem quit_branch_reenters_select :
    (startSys cleanupIntervalDefault cleanupWorkersDefault (NewJanitor (storeEnv 3600))).bind
        (run [Action.stopClose, Action.stopTicker, Action.recvQuit 0])
      = some { j := { ticker := some { d := 600000000000, stopped := true, C := false },
                      quit := Chan.closed, ttl := 3600000000000 },
               workers := [Pc.select], stop := StopPc.returned,
               logged := ["Cleanup task 0 exiting."] }
    ∧ step (Action.recvQuit 0)
        { j := { ticker := some { d := 600000000000, stopped := true, C := false },
                 quit := Chan.closed, ttl := 3600000000000 },
          workers := [Pc.select], stop := StopPc.returned,
          logged := ["Cleanup task 0 exiting."] }
      = some { j := { ticker := some { d := 600000000000, stopped := true, C := false },
                      quit := Chan.closed, ttl := 3600000000000 },
               workers := [Pc.select], stop := StopPc.returned,
               logged := ["Cleanup task 0 exiting.", "Cleanup task 0 exiting."] } := by
  decide

/-- In every run no worker ever exits: the goroutine body has no `return`. -/
theorem no_worker_exits (cleanupInterval cleanupWorkers : Int) (j : Janitor) (s0 : Sys)
    (as : List Action) (s : Sys)
    (hstart : startSys cleanupInterval cleanupWorkers j = some s0)
    (h : run as s0 = some s) : Pc.exited ∉ s.workers := by
  apply (run_workers as _ s h).2.1
  obtain ⟨_, rfl⟩ := startSys_some cleanupInterval cleanupWorkers j s0 hstart
  by_cases httl : j.ttl = 0
  · simp [httl]
  · simp [httl]


/-! ## Start with a non-zero TTL -/

theorem get?_set_self_pc (l : List Pc) (b : Pc) : ∀ (i : Nat) (a : Pc),
    l.get? i = some a → (l.set i b).get? i = some b := by
  induction l with
  | nil => intro i a h; simp at h
  | cons x l ih =>
    intro i a h
    cases i with
    | zero => simp
    | succ i =>
      simp at h
      simpa using ih i a (by simpa using h)

theorem step_recvTick_eq (s : Sys) (t : Ticker) (i : Nat) (ht : s.j.ticker = some t)
    (hc : t.C = true) (hw : s.workers.get? i = some Pc.select) :
    step (Action.recvTick i) s
      = some { s with j := setC s.j t false, workers := s.workers.set i Pc.received } := by
  simp only [step, hw, ht, hc, if_true]

theorem step_callSweep_eq (s : Sys) (i : Nat) (hw : s.workers.get? i = some Pc.received) :
    step (Action.callSweep i) s = some { s with workers := s.workers.set i Pc.sweep } := by
  simp only [step, hw]

theorem step_sweepReturn_eq (s : Sys) (i : Nat) (hw : s.workers.get? i = some Pc.sweep) :
    step (Action.sweepReturn i) s = some { s with workers := s.workers.set i Pc.select } := by
  simp only [step, hw]

/-- In a state whose ticker field is set: a worker at the `select` can receive
a buffered tick, after which no worker can receive it again; a worker holding
a tick can call `deleteExpiredInvocations`; a worker inside the call can
return to the `select`. -/
theorem worker_steps_enabled (s : Sys) (hts : s.j.ticker.isSome = true) :
    (∀ i : Nat, s.workers.get? i = some Pc.select → tickBuffered s.j = true →
        ∃ s1, step (Action.recvTick i) s = some s1
          ∧ s1.workers = s.workers.set i Pc.received
          ∧ tickBuffered s1.j = false
          ∧ ∀ k : Nat, step (Action.recvTick k) s1 = none)
    ∧ (∀ i : Nat, s.workers.get? i = some Pc.received →
        ∃ s1, step (Action.callSweep i) s = some s1
          ∧ s1.workers = s.workers.set i Pc.sweep)
    ∧ (∀ i : Nat, s.workers.get? i = some Pc.sweep →
        ∃ s1, step (Action.sweepReturn i) s = some s1
          ∧ s1.workers = s.workers.set i Pc.select) := by
  obtain ⟨t, ht⟩ := Option.isSome_iff_exists.mp hts
  refine ⟨?_, ?_, ?_⟩
  · intro i hw hb
    have hc : t.C = true := by simpa [tickBuffered, ht] using hb
    refine ⟨_, step_recvTick_eq s t i ht hc hw, rfl, by simp [tickBuffered, setC], ?_⟩
    intro k
    simp only [step, setC]
    split
    · rename_i t2 _ heq
      cases heq
      simp
    · rfl
  · intro i hw
    exact ⟨_, step_callSweep_eq s i hw, rfl⟩
  · intro i hw
    exact ⟨_, step_sweepReturn_eq s i hw, rfl⟩

/-- A buffered tick can be consumed: when the ticker field is set, a tick is
buffered and worker `i` has not exited, some run in which no further tick is
delivered has exactly one receive, by worker `i`, and ends with the call of
`deleteExpiredInvocations` that this receive triggers. -/
theorem buffered_tick_can_be_swept (s : Sys) (i : Nat) (p : Pc)
    (hts : s.j.ticker.isSome = true) (hb : tickBuffered s.j = true)
    (hw : s.workers.get? i = some p) (hp : p ≠ Pc.exited) :
    ∃ (as : List Action) (s1 : Sys), run as s = some s1
      ∧ as.countP Action.isTick = 0
      ∧ as.countP Action.isRecvTick = 1
      ∧ as.getLast? = some (Action.callSweep i)
      ∧ (Action.recvTick i) ∈ as
      ∧ tickBuffered s1.j = false
      ∧ s1.workers.get? i = some Pc.sweep := by
  obtain ⟨t, ht⟩ := Option.isSome_iff_exists.mp hts
  have hc : t.C = true := by simpa [tickBuffered, ht] using hb
  have fromSelect : ∀ s0 : Sys, s0.j.ticker = some t → s0.workers.get? i = some Pc.select →
      ∃ s1, run [Action.recvTick i, Action.callSweep i] s0 = some s1
        ∧ tickBuffered s1.j = false ∧ s1.workers.get? i = some Pc.sweep := by
    intro s0 ht0 hw0
    have h1 := step_recvTick_eq s0 t i ht0 hc hw0
    have hw1 : ({ s0 with j := setC s0.j t false,
                          workers := s0.workers.set i Pc.received } : Sys).workers.get? i
        = some Pc.received := get?_set_self_pc _ _ _ _ hw0
    have h2 := step_callSweep_eq _ i hw1
    refine ⟨{ s0 with j := setC s0.j t false,
                      workers := (s0.workers.set i Pc.received).set i Pc.sweep },
      ?_, by simp [tickBuffered, setC], ?_⟩
    · rw [run, h1]
      simp only
      rw [run, h2]
      rfl
    · exact get?_set_self_pc _ _ _ _ hw1
  cases p with
  | exited => exact absurd rfl hp
  | select =>
    obtain ⟨s1, hr, hb1, hw1⟩ := fromSelect s ht hw
    exact ⟨_, s1, hr, by simp [Action.isTick], by simp [Action.isRecvTick], by simp, by simp,
      hb1, hw1⟩
  | received =>
    have h1 := step_callSweep_eq s i hw
    have hw1 : ({ s with workers := s.workers.set i Pc.sweep } : Sys).workers.get? i
        = some Pc.sweep := get?_set_self_pc _ _ _ _ hw
    have h2 := step_sweepReturn_eq ({ s with workers := s.workers.set i Pc.sweep } : Sys) i hw1
    have hw2 : ({ s with workers := (s.workers.set i Pc.sweep).set i Pc.select } : Sys).workers.get? i
        = some Pc.select := get?_set_self_pc _ _ _ _ hw1
    obtain ⟨s1, hr, hb1, hws⟩ :=
      fromSelect ({ s with workers := (s.workers.set i Pc.sweep).set i Pc.select } : Sys) ht hw2
    refine ⟨[Action.callSweep i, Action.sweepReturn i, Action.recvTick i, Action.callSweep i],
      s1, ?_, by simp [Action.isTick], by simp [Action.isRecvTick], by simp, by simp, hb1, hws⟩
    rw [run, h1]
    simp only
    rw [run, h2]
    exact hr
  | sweep =>
    have h2 := step_sweepReturn_eq s i hw
    have hw2 : ({ s with workers := s.workers.set i Pc.select } : Sys).workers.get? i
        = some Pc.select := get?_set_self_pc _ _ _ _ hw
    obtain ⟨s1, hr, hb1, hws⟩ :=
      fromSelect ({ s with workers := s.workers.set i Pc.select } : Sys) ht hw2
    refine ⟨[Action.sweepReturn i, Action.recvTick i, Action.callSweep i],
      s1, ?_, by simp [Action.isTick], by simp [Action.isRecvTick], by simp, by simp, hb1, hws⟩
    rw [run, h2]
    exact hr

/-- C8, as stated, fails twice. With a cleanup interval of 0 `Start` panics in
`time.NewTicker` and creates nothing. With a worker count of 0, inside the
claimed range, `Start` spawns no worker, so a delivered tick stays in the
channel and is received by no worker in any run. -/
theorem no_worker_no_receive :
    Start 0 cleanupWorkersDefault (NewJanitor (storeEnv 3600))
      = Except.error "non-positive interval for NewTicker"
    ∧ (startSys cleanupIntervalDefault 0 (NewJanitor (storeEnv 3600))).bind (run [Action.tick])
      = some { j := { ticker := some { d := 600000000000, stopped := false, C := true },
                      quit := Chan.opened, ttl := 3600000000000 },
               workers := [], stop := StopPc.notCalled, logged := [] }
    ∧ ∀ (as : List Action) (s : Sys),
        run as { j := { ticker := some { d := 600000000000, stopped := false, C := true },
                        quit := Chan.opened, ttl := 3600000000000 },
                 workers := [], stop := StopPc.notCalled, logged := [] } = some s →
        as.countP Action.isRecvTick = 0 ∧ as.countP Action.isCallSweep = 0 := by
  refine ⟨rfl, by decide, ?_⟩
  intro as s h
  exact (run_no_workers as _ s h rfl).2

/-- C8 (amended): for every janitor with a non-zero TTL, every positive cleanup
interval and every worker count `N`, `Start` makes one running ticker at that
interval and one open quit channel and spawns `max N 0` workers at the
`select` (none for `N ≤ 0`, one for the default). In every run the number of
workers stays the same and none exits; every tick delivered into the ticker
channel is either still buffered or was received by one worker step; every
received tick is either still held by its worker or started one sweep cycle;
a worker at the `select` can receive a buffered tick, and then no worker can
receive it again; a worker that holds a tick can call
`deleteExpiredInvocations`; a tick is received only by a worker at the
`select`, a sweep cycle started only by a worker that holds a tick; and for
every worker there is a run in which that worker receives a buffered tick and
starts its sweep cycle. -/
theorem Start_spawns_workers (cleanupInterval cleanupWorkers : Int) (j : Janitor)
    (httl : j.ttl ≠ 0) (hci : 0 < cleanupInterval) :
    ∃ r, Start cleanupInterval cleanupWorkers j = Except.ok r
      ∧ r.j.ticker = some { d := cleanupInterval, stopped := false, C := false }
      ∧ r.j.quit = Chan.opened
      ∧ r.spawned = List.replicate cleanupWorkers.toNat Pc.select
      ∧ (0 ≤ cleanupWorkers → (r.spawned.length : Int) = cleanupWorkers)
      ∧ (cleanupWorkers ≤ 0 → r.spawned = [])
      ∧ (cleanupWorkers = cleanupWorkersDefault → r.spawned = [Pc.select])
      ∧ ∀ (as : List Action) (s : Sys), run as (Sys.ofStarted r) = some s →
          s.workers.length = cleanupWorkers.toNat
          ∧ Pc.exited ∉ s.workers
          ∧ as.countP Action.isTick = as.countP Action.isRecvTick + pending s
          ∧ as.countP Action.isRecvTick = as.countP Action.isCallSweep + holding s
          ∧ as.countP Action.isCallSweep = as.countP Action.isSweepReturn + sweeping s
          ∧ (∀ i : Nat, s.workers.get? i = some Pc.select → tickBuffered s.j = true →
              ∃ s1, step (Action.recvTick i) s = some s1
                ∧ s1.workers = s.workers.set i Pc.received
                ∧ tickBuffered s1.j = false
                ∧ ∀ k : Nat, step (Action.recvTick k) s1 = none)
          ∧ (∀ i : Nat, s.workers.get? i = some Pc.received →
              ∃ s1, step (Action.callSweep i) s = some s1
                ∧ s1.workers = s.workers.set i Pc.sweep)
          ∧ (∀ i : Nat, s.workers.get? i = some Pc.sweep →
              ∃ s1, step (Action.sweepReturn i) s = some s1
                ∧ s1.workers = s.workers.set i Pc.select)
          ∧ (∀ (i : Nat) (s1 : Sys), step (Action.recvTick i) s = some s1 →
              s.workers.get? i = some Pc.select ∧ tickBuffered s.j = true)
          ∧ (∀ (i : Nat) (s1 : Sys), step (Action.callSweep i) s = some s1 →
              s.workers.get? i = some Pc.received)
          ∧ (∀ (i : Nat) (p : Pc), s.workers.get? i = some p → tickBuffered s.j = true →
              ∃ (as1 : List Action) (s1 : Sys), run as1 s = some s1
                ∧ as1.countP Action.isTick = 0
                ∧ as1.countP Action.isRecvTick = 1
                ∧ as1.getLast? = some (Action.callSweep i)
                ∧ (Action.recvTick i) ∈ as1
                ∧ tickBuffered s1.j = false
                ∧ s1.workers.get? i = some Pc.sweep) := by
  refine ⟨_, Start_enabled cleanupInterval cleanupWorkers j httl hci, rfl, rfl, rfl, ?_, ?_, ?_, ?_⟩
  · intro h0
    simp only [List.length_replicate]
    omega
  · intro h0
    have e : cleanupWorkers.toNat = 0 := by omega
    simp [e]
  · intro hd
    rw [hd]
    rfl
  · intro as s h
    have hw := run_workers as _ s h
    have ht := run_tick_balance as _ s h
    have hr := run_recv_balance as _ s h
    have hs := run_sweep_balance as _ s h
    have hts : s.j.ticker.isSome = true := hw.2.2 (by simp [Sys.ofStarted])
    have hen := worker_steps_enabled s hts
    have hh0 : holding (Sys.ofStarted
        { j := { ticker := some { d := cleanupInterval, stopped := false, C := false },
                 quit := Chan.opened, ttl := j.ttl },
          spawned := List.replicate cleanupWorkers.toNat Pc.select, logged := [] }) = 0 := by
      simp [holding, Sys.ofStarted, List.count_replicate]
    have hs0 : sweeping (Sys.ofStarted
        { j := { ticker := some { d := cleanupInterval, stopped := false, C := false },
                 quit := Chan.opened, ttl := j.ttl },
          spawned := List.replicate cleanupWorkers.toNat Pc.select, logged := [] }) = 0 := by
      simp [sweeping, Sys.ofStarted, List.count_replicate]
    have hne : Pc.exited ∉ s.workers := by
      apply hw.2.1
      simp [Sys.ofStarted]
    refine ⟨by simpa [Sys.ofStarted] using hw.1, hne, ?_, ?_, ?_, hen.1, hen.2.1, hen.2.2,
      ?_, ?_, ?_⟩
    · simpa [Sys.ofStarted, pending, tickBuffered] using ht
    · rw [hh0] at hr
      simpa using hr
    · rw [hs0] at hs
      simpa using hs
    · intro i s1 hstep
      obtain ⟨t, htk, hc, hwi, _⟩ := step_spec _ s s1 hstep
      exact ⟨hwi, by simp [tickBuffered, htk, hc]⟩
    · intro i s1 hstep
      exact (step_spec _ s s1 hstep).1
    · intro i p hwi hb
      have hp : p ≠ Pc.exited := by
        intro he
        subst he
        exact hne (List.get?_mem hwi)
      exact buffered_tick_can_be_swept s i p hts hb hwi hp

/-- Witness of C8 (amended): the default flags and a TTL of one hour. -/
theorem Start_spawns_workers_witness :
    ((NewJanitor (storeEnv 3600)).ttl ≠ 0 ∧ 0 < cleanupIntervalDefault)
    ∧ ∃ r, Start cleanupIntervalDefault cleanupWorkersDefault (NewJanitor (storeEnv 3600))
          = Except.ok r
      ∧ r.j.ticker = some { d := cleanupIntervalDefault, stopped := false, C := false }
      ∧ r.j.quit = Chan.opened
      ∧ r.spawned = List.replicate cleanupWorkersDefault.toNat Pc.select
      ∧ (0 ≤ cleanupWorkersDefault → (r.spawned.length : Int) = cleanupWorkersDefault)
      ∧ (cleanupWorkersDefault ≤ 0 → r.spawned = [])
      ∧ (cleanupWorkersDefault = cleanupWorkersDefault → r.spawned = [Pc.select])
      ∧ ∀ (as : List Action) (s : Sys), run as (Sys.ofStarted r) = some s →
          s.workers.length = cleanupWorkersDefault.toNat
          ∧ Pc.exited ∉ s.workers
          ∧ as.countP Action.isTick = as.countP Action.isRecvTick + pending s
          ∧ as.countP Action.isRecvTick = as.countP Action.isCallSweep + holding s
          ∧ as.countP Action.isCallSweep = as.countP Action.isSweepReturn + sweeping s
          ∧ (∀ i : Nat, s.workers.get? i = some Pc.select → tickBuffered s.j = true →
              ∃ s1, step (Action.recvTick i) s = some s1
                ∧ s1.workers = s.workers.set i Pc.received
                ∧ tickBuffered s1.j = false
                ∧ ∀ k : Nat, step (Action.recvTick k) s1 = none)
          ∧ (∀ i : Nat, s.workers.get? i = some Pc.received →
              ∃ s1, step (Action.callSweep i) s = some s1
                ∧ s1.workers = s.workers.set i Pc.sweep)
          ∧ (∀ i : Nat, s.workers.get? i = some Pc.sweep →
              ∃ s1, step (Action.sweepReturn i) s = some s1
                ∧ s1.workers = s.workers.set i Pc.select)
          ∧ (∀ (i : Nat) (s1 : Sys), step (Action.recvTick i) s = some s1 →
              s.workers.get? i = some Pc.select ∧ tickBuffered s.j = true)
          ∧ (∀ (i : Nat) (s1 : Sys), step (Action.callSweep i) s = some s1 →
              s.workers.get? i = some Pc.received)
          ∧ (∀ (i : Nat) (p : Pc), s.workers.get? i = some p → tickBuffered s.j = true →
              ∃ (as1 : List Action) (s1 : Sys), run as1 s = some s1
                ∧ as1.countP Action.isTick = 0
                ∧ as1.countP Action.isRecvTick = 1
                ∧ as1.getLast? = some (Action.callSweep i)
                ∧ (Action.recvTick i) ∈ as1
                ∧ tickBuffered s1.j = false
                ∧ s1.workers.get? i = some Pc.sweep) :=
  ⟨⟨by decide, by decide⟩,
    Start_spawns_workers cleanupIntervalDefault cleanupWorkersDefault
      (NewJanitor (storeEnv 3600)) (by decide) (by decide)⟩

/-- With the default flags and a TTL of one hour a delivered tick is received
by the worker, which then starts one sweep cycle and returns to the
`select`. -/
theorem tick_received_and_swept :
    (startSys cleanupIntervalDefault cleanupWorkersDefault (NewJanitor (storeEnv 3600))).bind
        (run [Action.tick, Action.recvTick 0, Action.callSweep 0, Action.sweepReturn 0])
      = some { j := { ticker := some { d := 600000000000, stopped := false, C := false },
                      quit := Chan.opened, ttl := 3600000000000 },
               workers := [Pc.select], stop := StopPc.notCalled, logged := [] } := by
  decide

/-! ## The lifecycle -/

theorem Stop_of_opened (j : Janitor) (t : Ticker) (hq : j.quit = Chan.opened)
    (ht : j.ticker = some t) :
    Stop j = Except.ok { ticker := some { t with stopped := true }, quit := Chan.closed,
                         ttl := j.ttl } := by
  simp [Stop, closeQuit, tickerStop, hq, ht]

theorem Stop_of_nil (j : Janitor) (hq : j.quit = Chan.nil) :
    Stop j = Except.error "close of nil channel" := by
  simp [Stop, closeQuit, hq]

theorem Stop_of_closed (j : Janitor) (hq : j.quit = Chan.closed) :
    Stop j = Except.error "close of closed channel" := by
  simp [Stop, closeQuit, hq]

/-- A lifecycle call that returns: `Start` leaves the quit channel open,
`Stop` found it open and leaves it closed; the ticker is set afterwards. -/
theorem applyOp_ok (ci cw : Int) (op : Op) (j j1 : Janitor)
    (h : applyOp ci cw op j = Except.ok j1) :
    j1.ticker.isSome = true
    ∧ j1.quit = op.quitAfter := by
  cases op with
  | start =>
    simp only [applyOp] at h
    by_cases hci : ci ≤ 0
    · simp [Start, NewTicker, hci] at h
    · have hpos : 0 < ci := by omega
      by_cases httl : j.ttl = 0
      · rw [Start_ttl_zero_eq ci cw j httl hpos] at h
        cases h
        simp [Op.quitAfter]
      · rw [Start_enabled ci cw j httl hpos] at h
        cases h
        simp [Op.quitAfter]
  | stop =>
    simp only [applyOp] at h
    cases hq : j.quit with
    | nil => rw [Stop_of_nil j hq] at h; cases h
    | closed => rw [Stop_of_closed j hq] at h; cases h
    | opened =>
      cases ht : j.ticker with
      | none => simp [Stop, closeQuit, tickerStop, hq, ht] at h
      | some t =>
        rw [Stop_of_opened j t hq ht] at h
        cases h
        simp [Op.quitAfter]

theorem runOps_ok (ci cw : Int) (ops : List Op) : ∀ (j j1 : Janitor),
    runOps ci cw ops j = Except.ok j1 →
    (ops = [] → j1 = j)
    ∧ ∀ op, ops.getLast? = some op →
        j1.ticker.isSome = true
        ∧ j1.quit = op.quitAfter := by
  induction ops with
  | nil =>
    intro j j1 h
    simp only [runOps] at h
    cases h
    simp
  | cons op rest ih =>
    intro j j2 h
    rw [runOps] at h
    cases h1 : applyOp ci cw op j with
    | error e => rw [h1] at h; cases h
    | ok j1 =>
      rw [h1] at h
      simp only at h
      have hrest := ih j1 j2 h
      refine ⟨by simp, ?_⟩
      intro op1 hlast
      cases rest with
      | nil =>
        have e := hrest.1 rfl
        simp at hlast
        subst hlast
        rw [e]
        exact applyOp_ok ci cw op j j1 h1
      | cons op2 rest2 =>
        rw [List.getLast?_cons_cons] at hlast
        exact hrest.2 op1 hlast

/-- C9: after any sequence of `Start` and `Stop` calls on a new janitor, none
of which panicked, `Stop` returns exactly when the last call was a `Start`,
whatever the TTL; on a janitor never started it panics closing a nil channel
and after a `Stop` it panics closing a closed channel. -/
theorem Stop_returns_iff {σ : Type} (env : Env σ) (cleanupInterval cleanupWorkers : Int)
    (ops : List Op) (j : Janitor)
    (h : runOps cleanupInterval cleanupWorkers ops (NewJanitor env) = Except.ok j) :
    ((∃ j1, Stop j = Except.ok j1) ↔ ops.getLast? = some Op.start)
    ∧ (ops = [] → Stop j = Except.error "close of nil channel")
    ∧ (ops.getLast? = some Op.stop → Stop j = Except.error "close of closed channel") := by
  have hr := runOps_ok cleanupInterval cleanupWorkers ops _ j h
  have hnil : ops = [] → Stop j = Except.error "close of nil channel" := by
    intro he
    rw [hr.1 he]
    exact Stop_of_nil _ rfl
  have hstop : ops.getLast? = some Op.stop →
      Stop j = Except.error "close of closed channel" := by
    intro hl
    exact Stop_of_closed j (hr.2 _ hl).2
  refine ⟨?_, hnil, hstop⟩
  constructor
  · rintro ⟨j1, hj1⟩
    cases hl : ops.getLast? with
    | none =>
      rw [hnil (List.getLast?_eq_none_iff.mp hl)] at hj1
      cases hj1
    | some op =>
      cases op with
      | start => rfl
      | stop =>
        rw [hstop hl] at hj1
        cases hj1
  · intro hl
    obtain ⟨ht, hq⟩ := hr.2 _ hl
    obtain ⟨t, ht1⟩ := Option.isSome_iff_exists.mp ht
    exact ⟨_, Stop_of_opened j t hq ht1⟩

/-- Witness of C9: a janitor with the disabled TTL 0, started once with the
default flags. -/
theorem Stop_returns_iff_witness :
    runOps cleanupIntervalDefault cleanupWorkersDefault [Op.start] (NewJanitor (storeEnv 0))
      = Except.ok { ticker := some { d := 600000000000, stopped := false, C := false },
                    quit := Chan.opened, ttl := 0 }
    ∧ ((∃ j1, Stop { ticker := some { d := 600000000000, stopped := false, C := false },
                     quit := Chan.opened, ttl := 0 } = Except.ok j1)
        ↔ [Op.start].getLast? = some Op.start) :=
  ⟨rfl, (Stop_returns_iff (storeEnv 0) cleanupIntervalDefault cleanupWorkersDefault
    [Op.start] _ rfl).1⟩


/-! ## Sweeping a well-behaved store -/

theorem dropFirstP_zero (p : Row → Bool) (l : List Row) : dropFirstP p 0 l = l := by
  cases l <;> rfl

theorem dropFirstP_countP (p : Row → Bool) (l : List Row) : ∀ n : Nat,
    (dropFirstP p n l).countP p = l.countP p - n := by
  induction l with
  | nil => intro n; simp [dropFirstP]
  | cons a l ih =>
    intro n
    cases n with
    | zero => simp [dropFirstP]
    | succ n =>
      by_cases hp : p a = true
      · simp [dropFirstP, hp, ih n]
      · simp [dropFirstP, hp, ih (n + 1)]

theorem dropFirstP_length (p : Row → Bool) (l : List Row) : ∀ n : Nat,
    (dropFirstP p n l).length + min (l.countP p) n = l.length := by
  induction l with
  | nil => intro n; simp [dropFirstP]
  | cons a l ih =>
    intro n
    cases n with
    | zero => simp [dropFirstP]
    | succ n =>
      by_cases hp : p a = true
      · have := ih n
        simp [dropFirstP, hp]
        omega
      · have := ih (n + 1)
        simp [dropFirstP, hp]
        omega

theorem dropFirstP_filter_not (p : Row → Bool) (l : List Row) : ∀ n : Nat,
    (dropFirstP p n l).filter (fun r => !p r) = l.filter (fun r => !p r) := by
  induction l with
  | nil => intro n; simp [dropFirstP]
  | cons a l ih =>
    intro n
    cases n with
    | zero => simp [dropFirstP]
    | succ n =>
      by_cases hp : p a = true
      · simp [dropFirstP, hp, ih n]
      · simp [dropFirstP, hp, ih (n + 1)]

theorem dropFirstP_sublist (p : Row → Bool) (l : List Row) : ∀ n : Nat,
    (dropFirstP p n l).Sublist l := by
  induction l with
  | nil => intro n; simp [dropFirstP]
  | cons a l ih =>
    intro n
    cases n with
    | zero => simp [dropFirstP]
    | succ n =>
      by_cases hp : p a = true
      · simp only [dropFirstP, hp, if_true]
        exact (ih n).cons a
      · simp only [dropFirstP, hp]
        exact (ih (n + 1)).cons₂ a

theorem mem_rowIDs_of_mem (l : List Row) (r : Row) (h : r ∈ l) :
    r.inv.InvocationID ∈ rowIDs l :=
  List.mem_map_of_mem (fun r => r.inv.InvocationID) h

theorem rowIDs_subset (l1 l2 : List Row) (h : l1.Sublist l2) (id : String)
    (hm : id ∈ rowIDs l1) : id ∈ rowIDs l2 :=
  (h.map (fun r => r.inv.InvocationID)).subset hm

/-- With unique identifiers, removing the rows whose identifier is among those
of the first `n` rows satisfying `p` removes exactly these rows. -/
theorem filter_ids_eq_dropFirstP (p : Row → Bool) (l : List Row) : ∀ n : Nat,
    (rowIDs l).Nodup →
    l.filter (fun r => decide (r.inv.InvocationID ∉ rowIDs ((l.filter p).take n)))
      = dropFirstP p n l := by
  induction l with
  | nil => intro n _; simp [dropFirstP]
  | cons a l ih =>
    intro n hnd
    have hnd1 : (rowIDs l).Nodup := (List.nodup_cons.mp hnd).2
    have ha : a.inv.InvocationID ∉ rowIDs l := (List.nodup_cons.mp hnd).1
    cases n with
    | zero => simp [dropFirstP, rowIDs]
    | succ n =>
      by_cases hp : p a = true
      · have e1 : ((a :: l).filter p).take (n + 1) = a :: (l.filter p).take n := by
          simp [List.filter_cons, hp]
        rw [e1]
        simp only [dropFirstP, hp, if_true]
        rw [← ih n hnd1]
        rw [List.filter_cons]
        have e2 : decide (a.inv.InvocationID ∉ rowIDs (a :: (l.filter p).take n)) = false := by
          simp [rowIDs]
        rw [e2]
        simp only [Bool.false_eq_true, if_false]
        apply List.filter_congr
        intro r hr
        have hne : r.inv.InvocationID ≠ a.inv.InvocationID := by
          intro he
          exact ha (he ▸ mem_rowIDs_of_mem l r hr)
        simp [rowIDs, hne]
      · have e1 : ((a :: l).filter p).take (n + 1) = (l.filter p).take (n + 1) := by
          simp [List.filter_cons, hp]
        rw [e1]
        simp only [dropFirstP, hp]
        rw [← ih (n + 1) hnd1]
        rw [List.filter_cons]
        have e2 : decide (a.inv.InvocationID ∉ rowIDs ((l.filter p).take (n + 1))) = true := by
          apply decide_eq_true
          intro hm
          exact ha (rowIDs_subset _ l
            ((List.take_sublist _ _).trans (List.filter_sublist _)) _ hm)
        rw [e2]
        simp

theorem deleteInvocation_store (ttlSeconds : Int) (flag : Bool) (inv : Invocation)
    (st : Store) :
    (deleteInvocation (storeEnv ttlSeconds) flag inv st).rows
      = st.rows.filter (fun r => decide (r.inv.InvocationID ≠ inv.InvocationID)) := by
  simp [deleteInvocation, storeEnv]

theorem deleteEach_store (ttlSeconds : Int) (flag : Bool) (invs : List Invocation) :
    ∀ st : Store, (deleteEach (storeEnv ttlSeconds) flag invs st).rows
      = st.rows.filter
          (fun r => decide (r.inv.InvocationID ∉ invs.map (fun i => i.InvocationID))) := by
  induction invs with
  | nil => intro st; simp [deleteEach]
  | cons inv rest ih =>
    intro st
    rw [deleteEach, ih, deleteInvocation_store, List.filter_filter]
    apply List.filter_congr
    intro r _
    simp only [List.map_cons, List.mem_cons, not_or, Bool.decide_and, ne_eq]
    rw [Bool.and_comm]

/-- One sweep cycle on the store removes the first ten expired rows. -/
theorem deleteExpiredInvocations_store (ttlSeconds : Int) (flag : Bool) (j : Janitor)
    (now : Int) (st : Store) (hlo : -2 ^ 63 < j.ttl) (hhi : j.ttl < 2 ^ 63)
    (hid : (rowIDs st.rows).Nodup) :
    (deleteExpiredInvocations (storeEnv ttlSeconds) flag j now st).rows
      = dropFirstP (isExpired now j.ttl) 10 st.rows := by
  have hc := cutoffAt_eq j now hlo hhi
  have hf : (fun r : Row => decide (r.created ≤ now - j.ttl)) = isExpired now j.ttl := by
    funext r
    unfold isExpired
    apply decide_eq_decide.mpr
    omega
  rw [← filter_ids_eq_dropFirstP _ _ 10 hid]
  unfold deleteExpiredInvocations
  have hl : ((storeEnv ttlSeconds).LookupExpiredInvocations (cutoffAt j now) 10 st)
      = (((((st.rows.filter (isExpired now j.ttl)).take 10).map Row.inv, none), st)) := by
    rw [hc, ← hf]
    rfl
  simp only [hl]
  rw [deleteEach_store]
  apply List.filter_congr
  intro r _
  simp [rowIDs, List.map_map, Function.comp_def]


theorem deleteInvocation_store_blobs (ttlSeconds : Int) (flag : Bool) (inv : Invocation)
    (st : Store) :
    (deleteInvocation (storeEnv ttlSeconds) flag inv st).blobs
      = st.blobs.filter (fun b => decide (b ≠ inv.BlobID)) := by
  simp [deleteInvocation, storeEnv]

theorem deleteEach_store_blobs (ttlSeconds : Int) (flag : Bool) (invs : List Invocation) :
    ∀ st : Store, (deleteEach (storeEnv ttlSeconds) flag invs st).blobs
      = st.blobs.filter (fun b => decide (b ∉ invs.map (fun i => i.BlobID))) := by
  induction invs with
  | nil => intro st; simp [deleteEach]
  | cons inv rest ih =>
    intro st
    rw [deleteEach, ih, deleteInvocation_store_blobs, List.filter_filter]
    apply List.filter_congr
    intro r _
    simp only [List.map_cons, List.mem_cons, not_or, Bool.decide_and, ne_eq]
    rw [Bool.and_comm]

/-- The lookup of a sweep cycle on the store: the first ten expired rows. -/
theorem lookup_store (ttlSeconds : Int) (j : Janitor) (now : Int) (st : Store)
    (hlo : -2 ^ 63 < j.ttl) (hhi : j.ttl < 2 ^ 63) :
    (storeEnv ttlSeconds).LookupExpiredInvocations (cutoffAt j now) 10 st
      = (((((st.rows.filter (isExpired now j.ttl)).take 10).map Row.inv, none), st)) := by
  have hc := cutoffAt_eq j now hlo hhi
  have hf : (fun r : Row => decide (r.created ≤ now - j.ttl)) = isExpired now j.ttl := by
    funext r
    unfold isExpired
    apply decide_eq_decide.mpr
    omega
  rw [hc, ← hf]
  rfl

/-- One sweep cycle on the store removes the rows that carry the identifier of
one of the first ten expired rows. -/
theorem deleteExpiredInvocations_store_ids (ttlSeconds : Int) (flag : Bool) (j : Janitor)
    (now : Int) (st : Store) (hlo : -2 ^ 63 < j.ttl) (hhi : j.ttl < 2 ^ 63) :
    (deleteExpiredInvocations (storeEnv ttlSeconds) flag j now st).rows
      = st.rows.filter (fun r => decide (r.inv.InvocationID
          ∉ rowIDs ((st.rows.filter (isExpired now j.ttl)).take 10))) := by
  unfold deleteExpiredInvocations
  simp only [lookup_store ttlSeconds j now st hlo hhi]
  rw [deleteEach_store]
  apply List.filter_congr
  intro r _
  simp [rowIDs, List.map_map, Function.comp_def]

/-- One sweep cycle on the store removes the blobs referenced by the first ten
expired rows. -/
theorem deleteExpiredInvocations_store_blobs (ttlSeconds : Int) (flag : Bool) (j : Janitor)
    (now : Int) (st : Store) (hlo : -2 ^ 63 < j.ttl) (hhi : j.ttl < 2 ^ 63) :
    (deleteExpiredInvocations (storeEnv ttlSeconds) flag j now st).blobs
      = st.blobs.filter (fun b => decide (b
          ∉ ((st.rows.filter (isExpired now j.ttl)).take 10).map (fun r => r.inv.BlobID))) := by
  unfold deleteExpiredInvocations
  simp only [lookup_store ttlSeconds j now st hlo hhi]
  rw [deleteEach_store_blobs]
  apply List.filter_congr
  intro r _
  simp [List.map_map, Function.comp_def]

/-- One sweep cycle on the store with unique identifiers, holding `k` expired
rows: what it removes and what it keeps. -/
theorem sweep_once (ttlSeconds : Int) (flag : Bool) (j : Janitor) (now : Int) (st : Store)
    (hlo : -2 ^ 63 < j.ttl) (hhi : j.ttl < 2 ^ 63) (hid : (rowIDs st.rows).Nodup) :
    (deleteExpiredInvocations (storeEnv ttlSeconds) flag j now st).rows.countP
        (isExpired now j.ttl)
      = st.rows.countP (isExpired now j.ttl) - min (st.rows.countP (isExpired now j.ttl)) 10
    ∧ (deleteExpiredInvocations (storeEnv ttlSeconds) flag j now st).rows.length
        + min (st.rows.countP (isExpired now j.ttl)) 10 = st.rows.length
    ∧ (deleteExpiredInvocations (storeEnv ttlSeconds) flag j now st).rows.Sublist st.rows
    ∧ (deleteExpiredInvocations (storeEnv ttlSeconds) flag j now st).rows.filter
        (fun r => !isExpired now j.ttl r)
      = st.rows.filter (fun r => !isExpired now j.ttl r)
    ∧ (∀ r ∈ st.rows, r ∉ (deleteExpiredInvocations (storeEnv ttlSeconds) flag j now st).rows →
        isExpired now j.ttl r = true
        ∧ r.inv.BlobID ∉ (deleteExpiredInvocations (storeEnv ttlSeconds) flag j now st).blobs)
    ∧ (∀ b ∈ st.blobs, b ∉ (deleteExpiredInvocations (storeEnv ttlSeconds) flag j now st).blobs →
        ∃ r ∈ st.rows,
          r ∉ (deleteExpiredInvocations (storeEnv ttlSeconds) flag j now st).rows
          ∧ isExpired now j.ttl r = true ∧ r.inv.BlobID = b)
    ∧ (deleteExpiredInvocations (storeEnv ttlSeconds) flag j now st).blobs.Sublist st.blobs := by
  have hr := deleteExpiredInvocations_store ttlSeconds flag j now st hlo hhi hid
  have hi := deleteExpiredInvocations_store_ids ttlSeconds flag j now st hlo hhi
  have hb := deleteExpiredInvocations_store_blobs ttlSeconds flag j now st hlo hhi
  have hsubB : ((st.rows.filter (isExpired now j.ttl)).take 10).Sublist st.rows :=
    (List.take_sublist _ _).trans (List.filter_sublist _)
  have hpB : ∀ r ∈ (st.rows.filter (isExpired now j.ttl)).take 10,
      isExpired now j.ttl r = true := by
    intro r hm
    exact (List.mem_filter.mp ((List.take_sublist _ _).subset hm)).2
  have c1 := dropFirstP_countP (isExpired now j.ttl) st.rows 10
  have l1 := dropFirstP_length (isExpired now j.ttl) st.rows 10
  have f1 := dropFirstP_filter_not (isExpired now j.ttl) st.rows 10
  refine ⟨?_, ?_, ?_, ?_, ?_, ?_, ?_⟩
  · rw [hr, c1]; omega
  · rw [hr]; exact l1
  · rw [hr]; exact dropFirstP_sublist _ _ _
  · rw [hr]; exact f1
  · intro r hm hn
    rw [hi] at hn
    have hidm : r.inv.InvocationID
        ∈ rowIDs ((st.rows.filter (isExpired now j.ttl)).take 10) := by
      by_contra hc
      exact hn (List.mem_filter.mpr ⟨hm, decide_eq_true hc⟩)
    obtain ⟨r1, hr1, he⟩ := List.mem_map.mp hidm
    have hr1m : r1 ∈ st.rows := hsubB.subset hr1
    have heq : r1 = r := List.inj_on_of_nodup_map hid hr1m hm he
    subst heq
    refine ⟨hpB _ hr1, ?_⟩
    rw [hb]
    intro hmb
    have := (List.mem_filter.mp hmb).2
    simp only [decide_eq_true_eq] at this
    exact this (List.mem_map_of_mem (fun r => r.inv.BlobID) hr1)
  · intro b hm hn
    rw [hb] at hn
    have hbm : b ∈ ((st.rows.filter (isExpired now j.ttl)).take 10).map
        (fun r => r.inv.BlobID) := by
      by_contra hc
      exact hn (List.mem_filter.mpr ⟨hm, decide_eq_true hc⟩)
    obtain ⟨r1, hr1, he⟩ := List.mem_map.mp hbm
    refine ⟨r1, hsubB.subset hr1, ?_, hpB _ hr1, he⟩
    rw [hi]
    intro hmr
    have := (List.mem_filter.mp hmr).2
    simp only [decide_eq_true_eq] at this
    exact this (mem_rowIDs_of_mem _ _ hr1)
  · rw [hb]; exact List.filter_sublist _

/-- C7, as stated, fails for the TTL `-2^63`: a row created at `now` has an age
of 0, at least the TTL, so it is expired; the cutoff of the lookup is
`now - 2^63`, the lookup returns nothing and the sweep cycle removes nothing,
not `min 1 10` rows. -/
theorem sweep_min_ttl_removes_nothing :
    (NewJanitor (storeEnv 18014398509481984)).ttl = -9223372036854775808
    ∧ List.countP (isExpired 0 (NewJanitor (storeEnv 18014398509481984)).ttl)
        [mkRow "a01" 0] = 1
    ∧ (deleteExpiredInvocations (storeEnv 18014398509481984) false
        (NewJanitor (storeEnv 18014398509481984)) 0
        { rows := [mkRow "a01" 0], blobs := ["blob-a01"] })
      = { rows := [mkRow "a01" 0], blobs := ["blob-a01"] } := by
  decide

/-- C7 (amended): on the well-behaved store with unique identifiers, for every
64-bit TTL other than `-2^63`, with `k` rows expired (age `now - created` at
least the TTL) at the time `now`: one sweep cycle removes exactly `min k 10`
rows, all of them expired, each together with its blob, and removes no other
row and no blob that no removed row references; a second sweep cycle does the
same with the `k - min k 10` expired rows that are left, removing
`min (k - min k 10) 10` of them; the rows that are not expired are all still
there after both. -/
theorem sweep_removes_expired_batch (ttlSeconds : Int) (logDeletionErrors : Bool)
    (j : Janitor) (now : Int) (st st1 st2 : Store)
    (hlo : -2 ^ 63 < j.ttl) (hhi : j.ttl < 2 ^ 63) (hid : (rowIDs st.rows).Nodup)
    (h1 : st1 = deleteExpiredInvocations (storeEnv ttlSeconds) logDeletionErrors j now st)
    (h2 : st2 = deleteExpiredInvocations (storeEnv ttlSeconds) logDeletionErrors j now st1) :
    (st1.rows.countP (isExpired now j.ttl)
        = st.rows.countP (isExpired now j.ttl) - min (st.rows.countP (isExpired now j.ttl)) 10
      ∧ st1.rows.length + min (st.rows.countP (isExpired now j.ttl)) 10 = st.rows.length
      ∧ st1.rows.Sublist st.rows
      ∧ st1.rows.filter (fun r => !isExpired now j.ttl r)
          = st.rows.filter (fun r => !isExpired now j.ttl r)
      ∧ (∀ r ∈ st.rows, r ∉ st1.rows →
          isExpired now j.ttl r = true ∧ r.inv.BlobID ∉ st1.blobs)
      ∧ (∀ b ∈ st.blobs, b ∉ st1.blobs →
          ∃ r ∈ st.rows, r ∉ st1.rows ∧ isExpired now j.ttl r = true ∧ r.inv.BlobID = b)
      ∧ st1.blobs.Sublist st.blobs)
    ∧ (st2.rows.countP (isExpired now j.ttl)
        = (st.rows.countP (isExpired now j.ttl)
            - min (st.rows.countP (isExpired now j.ttl)) 10)
          - min (st.rows.countP (isExpired now j.ttl)
                  - min (st.rows.countP (isExpired now j.ttl)) 10) 10
      ∧ st2.rows.length
          + min (st.rows.countP (isExpired now j.ttl)
                  - min (st.rows.countP (isExpired now j.ttl)) 10) 10
        = st1.rows.length
      ∧ st2.rows.Sublist st1.rows
      ∧ st2.rows.filter (fun r => !isExpired now j.ttl r)
          = st.rows.filter (fun r => !isExpired now j.ttl r)
      ∧ (∀ r ∈ st1.rows, r ∉ st2.rows →
          isExpired now j.ttl r = true ∧ r.inv.BlobID ∉ st2.blobs)
      ∧ (∀ b ∈ st1.blobs, b ∉ st2.blobs →
          ∃ r ∈ st1.rows, r ∉ st2.rows ∧ isExpired now j.ttl r = true ∧ r.inv.BlobID = b)
      ∧ st2.blobs.Sublist st1.blobs) := by
  have a := sweep_once ttlSeconds logDeletionErrors j now st hlo hhi hid
  rw [← h1] at a
  have hid1 : (rowIDs st1.rows).Nodup := by
    have hs : (rowIDs st1.rows).Sublist (rowIDs st.rows) :=
      a.2.2.1.map (fun r : Row => r.inv.InvocationID)
    exact hs.nodup hid
  have b := sweep_once ttlSeconds logDeletionErrors j now st1 hlo hhi hid1
  rw [← h2] at b
  obtain ⟨a1, a2, a3, a4, a5, a6, a7⟩ := a
  obtain ⟨b1, b2, b3, b4, b5, b6, b7⟩ := b
  rw [a1] at b1 b2
  exact ⟨⟨a1, a2, a3, a4, a5, a6, a7⟩, b1, b2, b3, b4.trans a4, b5, b6, b7⟩

/-- The scenario evaluated: the rows and the blobs left by the first and by the
second sweep cycle. -/
theorem scenario_sweeps :
    deleteExpiredInvocations (storeEnv 3600) false (NewJanitor (storeEnv 3600))
        10800000000000 scenarioStore
      = { rows := (["a11", "a12", "a13", "a14", "a15"].map
                    (fun id => mkRow id 3600000000000))
                  ++ (["b01", "b02", "b03", "b04", "b05"].map
                    (fun id => mkRow id 9000000000000))
          blobs := ["blob-a11", "blob-a12", "blob-a13", "blob-a14", "blob-a15",
                    "blob-b01", "blob-b02", "blob-b03", "blob-b04", "blob-b05"] }
    ∧ deleteExpiredInvocations (storeEnv 3600) false (NewJanitor (storeEnv 3600))
        10800000000000
        (deleteExpiredInvocations (storeEnv 3600) false (NewJanitor (storeEnv 3600))
          10800000000000 scenarioStore)
      = { rows := ["b01", "b02", "b03", "b04", "b05"].map (fun id => mkRow id 9000000000000)
          blobs := ["blob-b01", "blob-b02", "blob-b03", "blob-b04", "blob-b05"] } := by
  decide

/-- Witness of C7 (amended): a TTL of one hour, fifteen rows aged two hours and
five aged thirty minutes, each with its blob. The first sweep leaves five
expired rows, the second none; the five young rows and their blobs stay, and
the blob of every removed row is gone. -/
theorem sweep_removes_expired_batch_witness :
    (scenarioStore.rows.countP (isExpired 10800000000000 (NewJanitor (storeEnv 3600)).ttl) = 15
      ∧ scenarioStore.rows.countP
          (fun r => !isExpired 10800000000000 (NewJanitor (storeEnv 3600)).ttl r) = 5)
    ∧ ((deleteExpiredInvocations (storeEnv 3600) false (NewJanitor (storeEnv 3600))
          10800000000000 scenarioStore).rows.countP
          (isExpired 10800000000000 (NewJanitor (storeEnv 3600)).ttl) = 5
      ∧ (deleteExpiredInvocations (storeEnv 3600) false (NewJanitor (storeEnv 3600))
          10800000000000 scenarioStore).rows.length + 10 = 20
      ∧ ∀ r ∈ scenarioStore.rows,
          r ∉ (deleteExpiredInvocations (storeEnv 3600) false (NewJanitor (storeEnv 3600))
                10800000000000 scenarioStore).rows →
          isExpired 10800000000000 (NewJanitor (storeEnv 3600)).ttl r = true
          ∧ r.inv.BlobID
              ∉ (deleteExpiredInvocations (storeEnv 3600) false (NewJanitor (storeEnv 3600))
                  10800000000000 scenarioStore).blobs)
    ∧ ((deleteExpiredInvocations (storeEnv 3600) false (NewJanitor (storeEnv 3600))
          10800000000000
          (deleteExpiredInvocations (storeEnv 3600) false (NewJanitor (storeEnv 3600))
            10800000000000 scenarioStore)).rows.countP
          (isExpired 10800000000000 (NewJanitor (storeEnv 3600)).ttl) = 0
      ∧ (deleteExpiredInvocations (storeEnv 3600) false (NewJanitor (storeEnv 3600))
          10800000000000
          (deleteExpiredInvocations (storeEnv 3600) false (NewJanitor (storeEnv 3600))
            10800000000000 scenarioStore)).rows.filter
          (fun r => !isExpired 10800000000000 (NewJanitor (storeEnv 3600)).ttl r)
        = scenarioStore.rows.filter
          (fun r => !isExpired 10800000000000 (NewJanitor (storeEnv 3600)).ttl r)) := by
  have hk : scenarioStore.rows.countP
      (isExpired 10800000000000 (NewJanitor (storeEnv 3600)).ttl) = 15 := by decide
  have hm : scenarioStore.rows.countP
      (fun r => !isExpired 10800000000000 (NewJanitor (storeEnv 3600)).ttl r) = 5 := by decide
  have hlen : scenarioStore.rows.length = 20 := by decide
  have h := sweep_removes_expired_batch 3600 false (NewJanitor (storeEnv 3600))
    10800000000000 scenarioStore _ _ (by decide) (by decide) (by decide) rfl rfl
  rw [hk, hlen] at h
  obtain ⟨⟨a1, a2, _, _, a5, _, _⟩, b1, _, _, b4, _, _, _⟩ := h
  exact ⟨⟨hk, hm⟩, ⟨a1, a2, a5⟩, b1, b4⟩

end janitor
